import Mathlib

/-!
Verification of the B-spline / NURBS evaluation engine of `ezdxf/algebra/spline.py`.

Python floats are modelled by exact rationals (`ℚ`): every arithmetic operation the
code performs on the inputs considered here (additions, subtractions, multiplications,
divisions) is exact in `ℚ`, and the code's comparisons (`<`, `<=`, `==`) translate
directly.  Python lists are `List ℚ` / `List Vec3` with the same 0-based indexing
(the code's "1-based" convention is a dummy entry at index 0, kept verbatim).
`ZeroDivisionError` is tracked, where a claim needs it, by `Option`-valued variants
(`divE`, `basisStepE`, `dbasisStepE`); `knot_closed`, where both `IndexError` and
`ZeroDivisionError` matter, runs in `Except PyErr` with both error paths checked in
Python's evaluation order.  All other list reads in the engine are in bounds for the
lengths the code itself builds, and are modelled with `List.getD _ _ 0`.
-/

/-- 3D point with rational coordinates (the coordinate triples produced by
`ezdxf.algebra.vector.Vector`, which is outside the spline module). -/
structure Vec3 where
  x : ℚ
  y : ℚ
  z : ℚ
deriving DecidableEq

def Vec3.zero : Vec3 := ⟨0, 0, 0⟩

/-- `one_based_array(values, decor)` (spline.py line 203): a fresh list with one dummy
entry prepended, making the payload 1-based.  The dummy is `0.0` in Python; here it is
a dummy of the element type. -/
def one_based_array {α : Type} (dummy : α) (values : List α) : List α :=
  dummy :: values

/-- Value of entry `i` of the list built by `knot_open_uniform` (spline.py line 209):
`x = [0.0, 0.0]`, then for `i` in `range(2, nplusc+1)` append `x[i-1] + 1.0` when
`order < i < n+2` and `x[i-1]` otherwise.  Entry `i` is therefore entry `i-1` plus the
conditional increment. -/
def kouVal (n order : ℕ) : ℕ → ℚ
  | 0 => 0
  | i + 1 =>
    kouVal n order i + (if 2 ≤ i + 1 ∧ order < i + 1 ∧ i + 1 < n + 2 then 1 else 0)

/-- `knot_open_uniform(n, order)` (spline.py lines 209-218): the full list
`[x[0], ..., x[nplusc]]` of length `n + order + 1`. -/
def knot_open_uniform (n order : ℕ) : List ℚ :=
  (List.range (n + order + 1)).map (kouVal n order)

/-- `knot_uniform(n, order)` (spline.py lines 221-225):
`x = [0.0, 0.0]` extended by `float(i)` for `i` in `range(1, nplusc)`. -/
def knot_uniform (n order : ℕ) : List ℚ :=
  [0, 0] ++ (List.range' 1 (n + order - 1)).map (fun i => (i : ℚ))

/-- The two exceptions Python can raise while running `knot_closed`: an out-of-bounds
list subscript, or a division whose (float) divisor is zero. -/
inductive PyErr where
  | indexError
  | zeroDivisionError
deriving DecidableEq

instance instDecEqExcept {e a : Type} [DecidableEq e] [DecidableEq a] :
    DecidableEq (Except e a) := fun x y =>
  match x, y with
  | .error u, .error v =>
      if h : u = v then .isTrue (congrArg Except.error h)
      else .isFalse (fun hc => h (Except.error.inj hc))
  | .ok u, .ok v =>
      if h : u = v then .isTrue (congrArg Except.ok h)
      else .isFalse (fun hc => h (Except.ok.inj hc))
  | .error _, .ok _ => .isFalse (fun hc => Except.noConfusion hc)
  | .ok _, .error _ => .isFalse (fun hc => Except.noConfusion hc)

/-- Checked list subscript `l[i]`: Python raises `IndexError` out of bounds. -/
def getItem {a : Type} (l : List a) (i : ℕ) : Except PyErr a :=
  match l.get? i with
  | none => Except.error PyErr.indexError
  | some x => Except.ok x

/-- Checked division: Python raises `ZeroDivisionError` on `x / 0.0`. -/
def divErr (x y : ℚ) : Except PyErr ℚ :=
  if y = 0 then Except.error PyErr.zeroDivisionError else Except.ok (x / y)

/-- Sequential evaluation of a Python loop/comprehension whose body may raise: the
first raised exception aborts the whole traversal, otherwise the list of results in
order. -/
def exMap {a b : Type} (f : a → Except PyErr b) : List a → Except PyErr (List b)
  | [] => Except.ok []
  | x :: l => do
      let y ← f x
      let ys ← exMap f l
      pure (y :: ys)

/-- `knot_closed(control_points, order)` (spline.py lines 228-240), with the external
Euclidean `distance` function (from `ezdxf.algebra.vector`, not part of this module)
kept as a parameter: the claims about this function hold for every `dist`.  Both error
paths of the source are modelled in Python's evaluation order: every list subscript is
checked (`IndexError`), and both divisions of the loop body are checked
(`float(i) / float(n - order + 2)` first, then — after the `spacing[i]` subscript —
`numerator / maxc`, the division that raises `ZeroDivisionError` when the pairwise
distances sum to zero). -/
def knot_closed (dist : Vec3 → Vec3 → ℚ) (control_points : List Vec3) (order : ℕ) :
    Except PyErr (List ℚ) :=
  let n := control_points.length - 1
  match exMap (fun i => do
      let a ← getItem control_points (i - 1)
      let b ← getItem control_points i
      pure (dist a b)) (List.range' 2 (n - 1)) with
  | .error e => .error e
  | .ok spacing =>
    let maxc := spacing.sum
    (exMap (fun i => do
        let csum := (spacing.take i).sum
        let q ← divErr (i : ℚ) ((n : ℚ) - (order : ℚ) + 2)
        let sp ← getItem spacing i
        let r ← divErr (q * sp + csum) maxc
        pure (r * ((n : ℚ) - (order : ℚ) + 2))) (List.range' 1 (n + 1 - order))).map
      (fun mid => List.replicate (order + 1) (0 : ℚ) ++ mid
        ++ List.replicate (order - 1) ((n : ℚ) - (order : ℚ) + 2))

/-- Closed form of the `spacing` list of `knot_closed`: the pairwise distances
`distance(control_points[i-1], control_points[i])` for `i` in `range(2, n+1)` (all
those subscripts are in bounds; proved equal to the traversal by
`knot_closed_spacing`). -/
def spacingOf (dist : Vec3 → Vec3 → ℚ) (cps : List Vec3) : List ℚ :=
  (List.range' 2 (cps.length - 1 - 1)).map
    (fun i => dist (cps.getD (i - 1) Vec3.zero) (cps.getD i Vec3.zero))

/-- The loop body of `knot_closed` (spline.py lines 236-238) at loop index `i`, for a
given `spacing` list, quotient `D = float(n - order + 2)` and `maxc`: definitionally
the function traversed by the loop stage of `knot_closed`. -/
def kcBody (spacing : List ℚ) (D maxc : ℚ) (i : ℕ) : Except PyErr ℚ :=
  do
    let csum := (spacing.take i).sum
    let q ← divErr (i : ℚ) D
    let sp ← getItem spacing i
    let r ← divErr (q * sp + csum) maxc
    pure (r * D)

/-- Knot-vector entry access `knots[i]`; every in-engine read is in bounds for the
lengths the code builds, so the default `0` is never the value actually used there. -/
def kn (knots : List ℚ) (i : ℕ) : ℚ := knots.getD i 0

/-- Body of the in-place update of `BSpline.basis` (spline.py lines 316-318):
`d + e` computed from the previous-level values `a = nbasis[i]`, `b = nbasis[i+1]`,
with the zero guards exactly as in the source. -/
def combK (knots : List ℚ) (t : ℚ) (k : ℕ) (a b : ℚ) (i : ℕ) : ℚ :=
  (if a ≠ 0 then (t - kn knots i) * a / (kn knots (i + k - 1) - kn knots i) else 0) +
  (if b ≠ 0 then (kn knots (i + k) - t) * b / (kn knots (i + k) - kn knots (i + 1)) else 0)

/-- One iteration `nbasis[i] = d + e` of the inner loop of `BSpline.basis`. -/
def basisStep (knots : List ℚ) (t : ℚ) (k : ℕ) (nb : List ℚ) (i : ℕ) : List ℚ :=
  nb.set i (combK knots t k (nb.getD i 0) (nb.getD (i + 1) 0) i)

/-- `BSpline.create_nbasis(t)` (spline.py lines 303-308): dummy `0.0` at index 0, then
the first-order basis `1.0 if knots[i] <= t < knots[i+1] else 0.0` for
`i` in `range(1, nplusc)`. -/
def create_nbasis (knots : List ℚ) (nplusc : ℕ) (t : ℚ) : List ℚ :=
  (0 : ℚ) :: (List.range' 1 (nplusc - 1)).map
    (fun i => if kn knots i ≤ t ∧ t < kn knots (i + 1) then (1 : ℚ) else 0)

/-- The two nested loops of `BSpline.basis` (spline.py lines 314-318):
`for k in range(2, order+1): for i in range(1, nplusc-k+1): nbasis[i] = d + e`. -/
def basisLevels (knots : List ℚ) (nplusc order : ℕ) (t : ℚ) (nb : List ℚ) : List ℚ :=
  (List.range' 2 (order - 1)).foldl
    (fun acc k => (List.range' 1 (nplusc - k)).foldl (basisStep knots t k) acc) nb

/-- The basis array after `create_nbasis` and the two loops, before the endpoint
fix-up. -/
def nbasisOf (knots : List ℚ) (nplusc order : ℕ) (t : ℚ) : List ℚ :=
  basisLevels knots nplusc order t (create_nbasis knots nplusc t)

/-- Curve state stored by `BSpline.__init__` (spline.py lines 250-258): the 1-based
control point array, the control point count, the order, and the knot vector.
The constructor performs no validation. -/
structure BSplineData where
  control_points : List Vec3
  cp_count : ℕ
  order : ℕ
  knots : List ℚ
deriving DecidableEq

/-- `self.nplusc = self._cp_count + self.order`. -/
def BSplineData.nplusc (c : BSplineData) : ℕ := c.cp_count + c.order

/-- `BSpline.__init__(control_points, order, knots)`: default knots are
`knot_open_uniform` (via `BSpline._knots`). -/
def BSpline_init (cps : List Vec3) (order : ℕ) (knots : Option (List ℚ)) : BSplineData :=
  ⟨one_based_array Vec3.zero cps, cps.length, order,
    knots.getD (knot_open_uniform cps.length order)⟩

/-- `BSplineU.__init__`: same constructor, but `BSplineU._knots` builds
`knot_uniform` when no knots are given. -/
def BSplineU_init (cps : List Vec3) (order : ℕ) (knots : Option (List ℚ)) : BSplineData :=
  ⟨one_based_array Vec3.zero cps, cps.length, order,
    knots.getD (knot_uniform cps.length order)⟩

/-- `BSpline.max_t` (spline.py line 270): `self.knots[self.nplusc]`. -/
def BSpline_max_t (c : BSplineData) : ℚ := kn c.knots c.nplusc

/-- `BSplineU.max_t` (spline.py line 337): `float(self._cp_count)`. -/
def BSplineU_max_t (c : BSplineData) : ℚ := (c.cp_count : ℚ)

/-- `BSpline.basis(t)` (spline.py lines 310-321), inherited unchanged by `BSplineU`,
`DBSpline` and `DBSplineU`: the loop result, with `nbasis[cp_count] = 1.0` forced
afterwards when `t == knots[nplusc]`. -/
def BSpline_basis (c : BSplineData) (t : ℚ) : List ℚ :=
  let nb := nbasisOf c.knots c.nplusc c.order t
  if t = kn c.knots c.nplusc then nb.set c.cp_count 1 else nb

/-- The snap tolerance `5e-6` of `BSpline.point` / `DBSplineMixin.point`. -/
def snap_tol : ℚ := 5 / 1000000

/-- `sum(nbasis[i] * control_points[i][axis] for i in range(1, npts1))`
(spline.py line 299) for one coordinate selector. -/
def wsum (nb : List ℚ) (cps : List Vec3) (npts : ℕ) (f : Vec3 → ℚ) : ℚ :=
  ((List.range' 1 npts).map (fun i => nb.getD i 0 * f (cps.getD i Vec3.zero))).sum

/-- `BSpline.point(t)` (spline.py lines 283-301), parameterised over the dynamically
dispatched `self.max_t` and `self.basis` exactly as Python dispatches them:
snap `t` to `max_t` when `max_t - t < 5e-6`, then form the weighted sum of the
1-based control points over `i = 1 .. npts`. -/
def point_eval (max_t : ℚ) (basisFn : ℚ → List ℚ) (cps : List Vec3) (npts : ℕ)
    (t : ℚ) : Vec3 :=
  let t1 := if max_t - t < snap_tol then max_t else t
  let nb := basisFn t1
  ⟨wsum nb cps npts Vec3.x, wsum nb cps npts Vec3.y, wsum nb cps npts Vec3.z⟩

/-- `point` of an open-uniform curve object. -/
def BSpline_point (c : BSplineData) (t : ℚ) : Vec3 :=
  point_eval (BSpline_max_t c) (BSpline_basis c) c.control_points c.cp_count t

/-- `point` of a uniform (periodic) curve object (only `max_t` differs). -/
def BSplineU_point (c : BSplineData) (t : ℚ) : Vec3 :=
  point_eval (BSplineU_max_t c) (BSpline_basis c) c.control_points c.cp_count t

/-- `weighting(nbasis, weights, npts)` (spline.py lines 458-464); the local
`s = sum(nbasis[i] * weights[i] for i in range(1, npts + 1))` is inlined (it is a
pure value used twice). -/
def weighting (nbasis weights : List ℚ) (npts : ℕ) : List ℚ :=
  if ((List.range' 1 npts).map (fun i => nbasis.getD i 0 * weights.getD i 0)).sum = 0
  then List.replicate (npts + 1) 0
  else one_based_array 0
    ((List.range' 1 npts).map (fun i => nbasis.getD i 0 * weights.getD i 0
      / ((List.range' 1 npts).map (fun i => nbasis.getD i 0 * weights.getD i 0)).sum))

/-- State of a rational curve: the underlying `BSpline`/`BSplineU` state plus the
1-based weight array. -/
structure RBSplineData where
  base : BSplineData
  weights : List ℚ
deriving DecidableEq

/-- The `ValueError` message of `RBSpline.__init__`. -/
def rb_mismatch_msg : String := "Item count of control_points and weights is different."

/-- `RBSpline.__init__(control_points, weights, order)` (spline.py lines 472-476):
raises `ValueError` when the counts differ, otherwise stores the 1-based weights
over an open-uniform base curve. -/
def RBSpline_init (cps : List Vec3) (ws : List ℚ) (order : ℕ) :
    Except String RBSplineData :=
  if cps.length ≠ ws.length then Except.error rb_mismatch_msg
  else Except.ok ⟨BSpline_init cps order none, one_based_array 0 ws⟩

/-- `RBSplineU.__init__(control_points, weights, order)` (spline.py lines 488-490):
no count check at all; always constructs, storing whatever weights were given. -/
def RBSplineU_init (cps : List Vec3) (ws : List ℚ) (order : ℕ) : RBSplineData :=
  ⟨BSplineU_init cps order none, one_based_array 0 ws⟩

/-- `RBSpline.basis(t)` / `RBSplineU.basis(t)` (spline.py lines 478-480, 492-494):
the inherited basis vector re-weighted by `weighting`. -/
def RBSpline_basis (c : RBSplineData) (t : ℚ) : List ℚ :=
  weighting (BSpline_basis c.base t) c.weights c.base.cp_count

/-- `DBSpline.create_nbasis2(t)` (spline.py lines 409-413). -/
def DBSpline_create_nbasis2 (c : BSplineData) (t : ℚ) : List ℚ :=
  let nb := create_nbasis c.knots c.nplusc t
  if t = kn c.knots c.nplusc then nb.set c.cp_count 1 else nb

/-- `DBSplineU.create_nbasis2(t)` (spline.py lines 421-427). -/
def DBSplineU_create_nbasis2 (c : BSplineData) (t : ℚ) : List ℚ :=
  let nb := create_nbasis c.knots c.nplusc t
  if t = kn c.knots (c.cp_count + 1) then (nb.set c.cp_count 1).set (c.cp_count + 1) 0
  else nb

/-- Checked division: Python raises `ZeroDivisionError` on `x / 0.0`. -/
def divE (a b : ℚ) : Option ℚ := if b = 0 then none else some (a / b)

/-- Division-checked form of the inner-loop body of `BSpline.basis`: a division is
attempted exactly when the corresponding zero guard passes, as in the source. -/
def basisStepE (knots : List ℚ) (t : ℚ) (k : ℕ) (nb : List ℚ) (i : ℕ) :
    Option (List ℚ) := do
  let d ← if nb.getD i 0 ≠ 0 then
      divE ((t - kn knots i) * nb.getD i 0) (kn knots (i + k - 1) - kn knots i)
    else some 0
  let e ← if nb.getD (i + 1) 0 ≠ 0 then
      divE ((kn knots (i + k) - t) * nb.getD (i + 1) 0)
        (kn knots (i + k) - kn knots (i + 1))
    else some 0
  some (nb.set i (d + e))

/-- Division-checked `BSpline.basis` loop (before the endpoint fix-up). -/
def nbasisOfE (knots : List ℚ) (nplusc order : ℕ) (t : ℚ) : Option (List ℚ) :=
  (List.range' 2 (order - 1)).foldlM
    (fun acc k => (List.range' 1 (nplusc - k)).foldlM (basisStepE knots t k) acc)
    (create_nbasis knots nplusc t)

/-- The division-checked outer loop truncated after `cnt` levels (levels `2 .. cnt+1`);
`nbasisOfE knots nplusc order t = basisLevelsAuxE knots nplusc t (order - 1)`. -/
def basisLevelsAuxE (knots : List ℚ) (nplusc : ℕ) (t : ℚ) (cnt : ℕ) : Option (List ℚ) :=
  (List.range' 2 cnt).foldlM
    (fun acc k => (List.range' 1 (nplusc - k)).foldlM (basisStepE knots t k) acc)
    (create_nbasis knots nplusc t)

/-- Division-checked `BSpline.basis(t)`: `none` exactly when Python raises
`ZeroDivisionError`. -/
def BSpline_basisE (c : BSplineData) (t : ℚ) : Option (List ℚ) :=
  (nbasisOfE c.knots c.nplusc c.order t).map
    (fun nb => if t = kn c.knots c.nplusc then nb.set c.cp_count 1 else nb)

/-- The three arrays `nbasis`, `d1nbasis`, `d2nbasis` updated in place by
`DBSplineMixin.dbasis`. -/
structure DState where
  nb : List ℚ
  d1 : List ℚ
  d2 : List ℚ
deriving DecidableEq

/-- Division-checked body of the inner loop of `DBSplineMixin.dbasis`
(spline.py lines 380-399): the terms `b1 b2 f1 f2 f3 f4 s1 s2 s3 s4` with their
zero guards, each division checked. -/
def dbasisStepE (knots : List ℚ) (t : ℚ) (k : ℕ) (st : DState) (i : ℕ) :
    Option DState := do
  let den1 := kn knots (i + k - 1) - kn knots i
  let den2 := kn knots (i + k) - kn knots (i + 1)
  let b1 ← if st.nb.getD i 0 ≠ 0 then
      divE ((t - kn knots i) * st.nb.getD i 0) den1 else some 0
  let b2 ← if st.nb.getD (i + 1) 0 ≠ 0 then
      divE ((kn knots (i + k) - t) * st.nb.getD (i + 1) 0) den2 else some 0
  let f1 ← if st.nb.getD i 0 ≠ 0 then divE (st.nb.getD i 0) den1 else some 0
  let f2 ← if st.nb.getD (i + 1) 0 ≠ 0 then divE (-st.nb.getD (i + 1) 0) den2 else some 0
  let f3 ← if st.d1.getD i 0 ≠ 0 then
      divE ((t - kn knots i) * st.d1.getD i 0) den1 else some 0
  let f4 ← if st.d1.getD (i + 1) 0 ≠ 0 then
      divE ((kn knots (i + k) - t) * st.d1.getD (i + 1) 0) den2 else some 0
  let s1 ← if st.d1.getD i 0 ≠ 0 then divE (2 * st.d1.getD i 0) den1 else some 0
  let s2 ← if st.d1.getD (i + 1) 0 ≠ 0 then
      divE (-2 * st.d1.getD (i + 1) 0) den2 else some 0
  let s3 ← if st.d2.getD i 0 ≠ 0 then
      divE ((t - kn knots i) * st.d2.getD i 0) den1 else some 0
  let s4 ← if st.d2.getD (i + 1) 0 ≠ 0 then
      divE ((kn knots (i + k) - t) * st.d2.getD (i + 1) 0) den2 else some 0
  some ⟨st.nb.set i (b1 + b2), st.d1.set i (f1 + f2 + f3 + f4),
    st.d2.set i (s1 + s2 + s3 + s4)⟩

/-- Division-checked `DBSplineMixin.dbasis(t)` (spline.py lines 373-401), starting
from a given `create_nbasis2` result and the zero-filled derivative arrays
`[0.0] * (nplusc + 1)`. -/
def dbasisE (knots : List ℚ) (nplusc order : ℕ) (t : ℚ) (nb0 : List ℚ) :
    Option DState :=
  (List.range' 2 (order - 1)).foldlM
    (fun st k => (List.range' 1 (nplusc - k)).foldlM (dbasisStepE knots t k) st)
    ⟨nb0, List.replicate (nplusc + 1) 0, List.replicate (nplusc + 1) 0⟩

/-- `DBSpline.dbasis(t)`: checked. -/
def DBSpline_dbasisE (c : BSplineData) (t : ℚ) : Option DState :=
  dbasisE c.knots c.nplusc c.order t (DBSpline_create_nbasis2 c t)

/-- `DBSplineU.dbasis(t)`: checked. -/
def DBSplineU_dbasisE (c : BSplineData) (t : ℚ) : Option DState :=
  dbasisE c.knots c.nplusc c.order t (DBSplineU_create_nbasis2 c t)

/-- `DBSplineMixin.point(t)` (spline.py lines 348-371), parameterised over the
dispatched `max_t` and `dbasis` as Python dispatches them: the same `5e-6` snap,
then three weighted sums over `i = 1 .. cp_count`. -/
def dpoint_eval (max_t : ℚ) (dbasisFn : ℚ → DState) (cps : List Vec3) (npts : ℕ)
    (t : ℚ) : Vec3 × Vec3 × Vec3 :=
  let t1 := if max_t - t < snap_tol then max_t else t
  let st := dbasisFn t1
  (⟨wsum st.nb cps npts Vec3.x, wsum st.nb cps npts Vec3.y, wsum st.nb cps npts Vec3.z⟩,
   ⟨wsum st.d1 cps npts Vec3.x, wsum st.d1 cps npts Vec3.y, wsum st.d1 cps npts Vec3.z⟩,
   ⟨wsum st.d2 cps npts Vec3.x, wsum st.d2 cps npts Vec3.y, wsum st.d2 cps npts Vec3.z⟩)

/-- The outer loop of `BSpline.basis` truncated after `cnt` levels (levels `2 .. cnt+1`),
started on the `create_nbasis` array; `basisLevelsAux knots nplusc t (order - 1)` is the
whole loop. -/
def basisLevelsAux (knots : List ℚ) (nplusc : ℕ) (t : ℚ) (cnt : ℕ) : List ℚ :=
  (List.range' 2 cnt).foldl
    (fun acc k => (List.range' 1 (nplusc - k)).foldl (basisStep knots t k) acc)
    (create_nbasis knots nplusc t)

/-- The Cox-de Boor recursion exactly as the loop computes it: `Nfun knots t j i` is
the value the in-place array holds at index `i` once level `j` has processed it.
Level 1 is the half-open indicator of `create_nbasis`; level `j ≥ 2` combines the two
level-`j-1` values below it with `combK`, the literal loop body.  The lemma
`nbasisOf_getD` proves this is what the imperative loop leaves in the array. -/
def Nfun (knots : List ℚ) (t : ℚ) : ℕ → ℕ → ℚ
  | 0, _ => 0
  | 1, i => if kn knots i ≤ t ∧ t < kn knots (i + 1) then 1 else 0
  | j + 2, i => combK knots t (j + 2) (Nfun knots t (j + 1) i) (Nfun knots t (j + 1) (i + 1)) i

/-- The guarded `d` contribution that level `j + 1` of the recursion adds at index `i`,
built from the level-`j` value at `i` (the first summand of `combK`). -/
def dTerm (knots : List ℚ) (t : ℚ) (j i : ℕ) : ℚ :=
  if Nfun knots t j i ≠ 0 then
    (t - kn knots i) * Nfun knots t j i / (kn knots (i + j) - kn knots i)
  else 0

/-- The guarded `e` contribution of level `j + 1` that multiplies the level-`j` value at
index `i`; it appears in the update of index `i - 1` (the second summand of `combK`). -/
def eTerm (knots : List ℚ) (t : ℚ) (j i : ℕ) : ℚ :=
  if Nfun knots t j i ≠ 0 then
    (kn knots (i + j) - t) * Nfun knots t j i / (kn knots (i + j) - kn knots i)
  else 0

/-! ### Basic list-access lemmas -/

lemma getD_set_self (l : List ℚ) (i : ℕ) (a : ℚ) (h : i < l.length) :
    (l.set i a).getD i 0 = a := by
  simp [List.getD_eq_getElem?_getD, List.getElem?_set_self h]

lemma getD_set_ne (l : List ℚ) (i j : ℕ) (a : ℚ) (h : i ≠ j) :
    (l.set i a).getD j 0 = l.getD j 0 := by
  simp [List.getD_eq_getElem?_getD, List.getElem?_set_ne h]

lemma getD_of_len_le (l : List ℚ) (i : ℕ) (h : l.length ≤ i) : l.getD i 0 = 0 := by
  simp [List.getD_eq_getElem?_getD, List.getElem?_eq_none h]

lemma sorted_kn_mono {knots : List ℚ} (hs : List.Sorted (· ≤ ·) knots)
    {i j : ℕ} (hij : i ≤ j) (hj : j < knots.length) : kn knots i ≤ kn knots j := by
  have hi : i < knots.length := lt_of_le_of_lt hij hj
  have h := hs.rel_get_of_le (a := ⟨i, hi⟩) (b := ⟨j, hj⟩) hij
  simpa [kn, List.getD_eq_getElem?_getD, List.getElem?_eq_getElem, hi, hj] using h

/-! ### Sum bridges between `List.sum` and `Finset.sum` -/

lemma list_sum_getD (l : List ℚ) : l.sum = ∑ i ∈ Finset.range l.length, l.getD i 0 := by
  induction l with
  | nil => simp
  | cons a l ih =>
      rw [List.sum_cons, List.length_cons, Finset.sum_range_succ']
      simp only [List.getD_cons_succ, List.getD_cons_zero]
      rw [← ih]; ring

lemma range'_map_sum (f : ℕ → ℚ) (a n : ℕ) :
    ((List.range' a n).map f).sum = ∑ i ∈ Finset.Ico a (a + n), f i := by
  induction n with
  | zero => simp
  | succ m ih =>
      rw [List.range'_concat, List.map_append, List.sum_append]
      rw [show a + (m + 1) = (a + m) + 1 by ring,
        Finset.sum_Ico_succ_top (Nat.le_add_right a m)]
      simp [ih]

/-! ### Characterisation of the in-place basis loop -/

lemma foldl_basisStep_length (knots : List ℚ) (t : ℚ) (k : ℕ) (l : List ℕ) :
    ∀ nb : List ℚ, (l.foldl (basisStep knots t k) nb).length = nb.length := by
  induction l with
  | nil => intro nb; rfl
  | cons a l ih => intro nb; rw [List.foldl_cons, ih]; simp [basisStep]

lemma foldl_basisStep_untouched (knots : List ℚ) (t : ℚ) (k : ℕ) (nb : List ℚ)
    (cnt m : ℕ) (hm : m = 0 ∨ cnt < m) :
    ((List.range' 1 cnt).foldl (basisStep knots t k) nb).getD m 0 = nb.getD m 0 := by
  induction cnt with
  | zero => rfl
  | succ c ih =>
      rw [List.range'_concat, List.foldl_append, List.foldl_cons, List.foldl_nil]
      rw [show 1 + 1 * c = c + 1 by ring]
      rw [basisStep, getD_set_ne _ _ _ _ (by omega)]
      exact ih (by omega)

lemma foldl_basisStep_written (knots : List ℚ) (t : ℚ) (k : ℕ) (nb : List ℚ) :
    ∀ cnt, cnt < nb.length → ∀ m, 1 ≤ m → m ≤ cnt →
      ((List.range' 1 cnt).foldl (basisStep knots t k) nb).getD m 0
        = combK knots t k (nb.getD m 0) (nb.getD (m + 1) 0) m := by
  intro cnt
  induction cnt with
  | zero => intro _ m _ h; omega
  | succ c ih =>
      intro hlen m h1 h2
      rw [List.range'_concat, List.foldl_append, List.foldl_cons, List.foldl_nil]
      rw [show 1 + 1 * c = c + 1 by ring]
      by_cases hmc : m = c + 1
      · subst hmc
        rw [basisStep, getD_set_self _ _ _
            (by rw [foldl_basisStep_length]; exact hlen)]
        rw [foldl_basisStep_untouched _ _ _ _ _ _ (by omega),
          foldl_basisStep_untouched _ _ _ _ _ _ (by omega)]
      · rw [basisStep, getD_set_ne _ _ _ _ (by omega)]
        exact ih (by omega) m h1 (by omega)

lemma create_nbasis_length (knots : List ℚ) (nplusc : ℕ) (t : ℚ) (h : 1 ≤ nplusc) :
    (create_nbasis knots nplusc t).length = nplusc := by
  simp [create_nbasis]; omega

lemma create_nbasis_getD_zero (knots : List ℚ) (nplusc : ℕ) (t : ℚ) :
    (create_nbasis knots nplusc t).getD 0 0 = 0 := rfl

lemma create_nbasis_getD (knots : List ℚ) (nplusc : ℕ) (t : ℚ) (m : ℕ)
    (h1 : 1 ≤ m) (h2 : m ≤ nplusc - 1) :
    (create_nbasis knots nplusc t).getD m 0 = Nfun knots t 1 m := by
  obtain ⟨m', rfl⟩ : ∃ m', m = m' + 1 := ⟨m - 1, by omega⟩
  rw [create_nbasis, List.getD_cons_succ]
  have hm' : m' < nplusc - 1 := by omega
  rw [List.getD_eq_getElem?_getD, List.getElem?_map]
  rw [List.getElem?_eq_getElem (by simpa using hm')]
  simp [Nfun, List.getElem_range', Nat.add_comm 1 m']

lemma basisLevelsAux_zero (knots : List ℚ) (nplusc : ℕ) (t : ℚ) :
    basisLevelsAux knots nplusc t 0 = create_nbasis knots nplusc t := rfl

lemma basisLevelsAux_succ (knots : List ℚ) (nplusc : ℕ) (t : ℚ) (cnt : ℕ) :
    basisLevelsAux knots nplusc t (cnt + 1)
      = (List.range' 1 (nplusc - (cnt + 2))).foldl (basisStep knots t (cnt + 2))
          (basisLevelsAux knots nplusc t cnt) := by
  rw [basisLevelsAux, List.range'_concat, List.foldl_append, List.foldl_cons,
    List.foldl_nil, basisLevelsAux, show 2 + 1 * cnt = cnt + 2 by ring]

lemma basisLevelsAux_length (knots : List ℚ) (nplusc : ℕ) (t : ℚ) (cnt : ℕ)
    (hnp : 1 ≤ nplusc) : (basisLevelsAux knots nplusc t cnt).length = nplusc := by
  induction cnt with
  | zero => exact create_nbasis_length knots nplusc t hnp
  | succ c ih => rw [basisLevelsAux_succ, foldl_basisStep_length]; exact ih

lemma basisLevelsAux_getD_zero (knots : List ℚ) (nplusc : ℕ) (t : ℚ) (cnt : ℕ) :
    (basisLevelsAux knots nplusc t cnt).getD 0 0 = 0 := by
  induction cnt with
  | zero => rfl
  | succ c ih =>
      rw [basisLevelsAux_succ,
        foldl_basisStep_untouched _ _ _ _ _ _ (Or.inl rfl)]
      exact ih

lemma basisLevelsAux_getD (knots : List ℚ) (nplusc : ℕ) (t : ℚ) (hnp : 1 ≤ nplusc) :
    ∀ cnt m, 1 ≤ m → m ≤ nplusc - 1 →
      (basisLevelsAux knots nplusc t cnt).getD m 0
        = Nfun knots t (min (cnt + 1) (nplusc - m)) m := by
  intro cnt
  induction cnt with
  | zero =>
      intro m h1 h2
      rw [basisLevelsAux_zero, create_nbasis_getD knots nplusc t m h1 h2]
      have : min 1 (nplusc - m) = 1 := by omega
      rw [this]
  | succ c ih =>
      intro m h1 h2
      rw [basisLevelsAux_succ]
      by_cases hm : m ≤ nplusc - (c + 2)
      · rw [foldl_basisStep_written knots t (c + 2) _ (nplusc - (c + 2))
            (by rw [basisLevelsAux_length knots nplusc t c hnp]; omega) m h1 hm]
        rw [ih m h1 h2, ih (m + 1) (by omega) (by omega)]
        have e1 : min (c + 1) (nplusc - m) = c + 1 := by omega
        have e2 : min (c + 1) (nplusc - (m + 1)) = c + 1 := by omega
        have e3 : min (c + 1 + 1) (nplusc - m) = c + 2 := by omega
        rw [e1, e2, e3]
        rfl
  
      · rw [foldl_basisStep_untouched _ _ _ _ _ _ (by omega)]
        rw [ih m h1 h2]
        have : min (c + 1) (nplusc - m) = min (c + 1 + 1) (nplusc - m) := by omega
        rw [this]

lemma nbasisOf_eq_aux (knots : List ℚ) (nplusc order : ℕ) (t : ℚ) :
    nbasisOf knots nplusc order t = basisLevelsAux knots nplusc t (order - 1) := rfl

lemma nbasisOf_length (knots : List ℚ) (nplusc order : ℕ) (t : ℚ) (hnp : 1 ≤ nplusc) :
    (nbasisOf knots nplusc order t).length = nplusc := by
  rw [nbasisOf_eq_aux]; exact basisLevelsAux_length knots nplusc t (order - 1) hnp

lemma nbasisOf_getD (knots : List ℚ) (nplusc order : ℕ) (t : ℚ) (hnp : 1 ≤ nplusc)
    (hord : 1 ≤ order) (m : ℕ) (h1 : 1 ≤ m) (h2 : m ≤ nplusc - 1) :
    (nbasisOf knots nplusc order t).getD m 0
      = Nfun knots t (min order (nplusc - m)) m := by
  rw [nbasisOf_eq_aux, basisLevelsAux_getD knots nplusc t hnp (order - 1) m h1 h2,
    show order - 1 + 1 = order by omega]

lemma nbasisOf_getD_zero (knots : List ℚ) (nplusc order : ℕ) (t : ℚ) :
    (nbasisOf knots nplusc order t).getD 0 0 = 0 := by
  rw [nbasisOf_eq_aux]; exact basisLevelsAux_getD_zero knots nplusc t (order - 1)

/-! ### Support and partition-of-unity properties of the recursion -/

lemma Nfun_support {knots : List ℚ} {t : ℚ} (hs : List.Sorted (· ≤ ·) knots)
    {M : ℕ} (hM : M < knots.length) :
    ∀ j, 1 ≤ j → ∀ i, i + j ≤ M → Nfun knots t j i ≠ 0 →
      kn knots i ≤ t ∧ t < kn knots (i + j) := by
  intro j
  induction j with
  | zero => omega
  | succ j' ih =>
      cases j' with
      | zero =>
          intro _ i _ hne
          rw [Nfun] at hne
          by_cases hc : kn knots i ≤ t ∧ t < kn knots (i + 1)
          · exact hc
          · simp [hc] at hne
      | succ j'' =>
          intro _ i hiM hne
          rw [Nfun, combK] at hne
          by_cases ha : Nfun knots t (j'' + 1) i = 0
          · rw [if_neg (not_not_intro ha), zero_add] at hne
            have hb : Nfun knots t (j'' + 1) (i + 1) ≠ 0 := by
              intro h0
              rw [if_neg (not_not_intro h0)] at hne
              exact hne rfl
            obtain ⟨hl, hr⟩ := ih (by omega) (i + 1) (by omega) hb
            refine ⟨le_trans (sorted_kn_mono hs (by omega) (by omega)) hl, ?_⟩
            have hidx : i + 1 + (j'' + 1) = i + (j'' + 1 + 1) := by omega
            rwa [hidx] at hr
          · obtain ⟨hl, hr⟩ := ih (by omega) i (by omega) ha
            exact ⟨hl, lt_of_lt_of_le hr (sorted_kn_mono hs (by omega) (by omega))⟩

lemma ind_partition {knots : List ℚ} {t : ℚ} (hs : List.Sorted (· ≤ ·) knots) :
    ∀ b a, a < b → b < knots.length → kn knots a ≤ t → t < kn knots b →
      ∑ i ∈ Finset.Ico a b, Nfun knots t 1 i = 1 := by
  intro b
  induction b with
  | zero => omega
  | succ b ih =>
      intro a hab hb ha ht
      rcases Nat.lt_or_ge a b with hab' | hab'
      · rw [Finset.sum_Ico_succ_top (by omega)]
        rcases lt_or_le t (kn knots b) with htb | htb
        · rw [ih a hab' (by omega) ha htb, Nfun,
            if_neg (by intro hc; exact absurd hc.1 (not_le.mpr htb)), add_zero]
        · have hz : ∑ i ∈ Finset.Ico a b, Nfun knots t 1 i = 0 := by
            apply Finset.sum_eq_zero
            intro i hi
            rw [Finset.mem_Ico] at hi
            rw [Nfun, if_neg]
            intro hc
            have : kn knots (i + 1) ≤ kn knots b :=
              sorted_kn_mono hs (by omega) (by omega)
            exact absurd (lt_of_lt_of_le hc.2 this) (not_lt.mpr htb)
          rw [hz, Nfun, if_pos ⟨htb, ht⟩, zero_add]
      · have hab'' : a = b := by omega
        subst hab''
        rw [Nat.Ico_succ_singleton, Finset.sum_singleton, Nfun, if_pos ⟨ha, ht⟩]

lemma Nfun_succ_eq (knots : List ℚ) (t : ℚ) (j i : ℕ) (hj : 1 ≤ j) :
    Nfun knots t (j + 1) i = dTerm knots t j i + eTerm knots t j (i + 1) := by
  obtain ⟨j', rfl⟩ : ∃ j', j = j' + 1 := ⟨j - 1, by omega⟩
  show combK knots t (j' + 2) (Nfun knots t (j' + 1) i) (Nfun knots t (j' + 1) (i + 1)) i
    = dTerm knots t (j' + 1) i + eTerm knots t (j' + 1) (i + 1)
  rw [combK, dTerm, eTerm,
    show i + (j' + 2) - 1 = i + (j' + 1) from by omega,
    show i + 1 + (j' + 1) = i + (j' + 2) from by omega]

lemma dTerm_add_eTerm {knots : List ℚ} {t : ℚ} (hs : List.Sorted (· ≤ ·) knots)
    {M : ℕ} (hM : M < knots.length) (j i : ℕ) (hj : 1 ≤ j) (hij : i + j ≤ M) :
    dTerm knots t j i + eTerm knots t j i = Nfun knots t j i := by
  by_cases h0 : Nfun knots t j i = 0
  · simp [dTerm, eTerm, h0]
  · obtain ⟨hl, hr⟩ := Nfun_support hs hM j hj i hij h0
    have hden : kn knots (i + j) - kn knots i ≠ 0 :=
      sub_ne_zero_of_ne (ne_of_gt (lt_of_le_of_lt hl hr))
    rw [dTerm, eTerm, if_pos h0, if_pos h0, div_add_div_same, ← add_mul,
      show t - kn knots i + (kn knots (i + j) - t)
        = kn knots (i + j) - kn knots i from by ring,
      mul_div_cancel_left₀ _ hden]

lemma Nfun_partition {knots : List ℚ} {t : ℚ} (hs : List.Sorted (· ≤ ·) knots)
    {M : ℕ} (hM : M < knots.length) :
    ∀ j, 1 ≤ j → j + 1 ≤ M → kn knots j ≤ t → t < kn knots (M - j + 1) →
      ∑ i ∈ Finset.Ico 1 (M - j + 1), Nfun knots t j i = 1 := by
  intro j
  induction j with
  | zero => omega
  | succ j' ih =>
      cases j' with
      | zero =>
          intro _ hjM ha ht
          exact ind_partition hs (M - 1 + 1) 1 (by omega) (by omega) ha ht
      | succ j'' =>
          intro _ hjM hlo hhi
          -- level j = j'' + 2, built from level jj := j'' + 1
          have hNlo : Nfun knots t (j'' + 1) 1 = 0 := by
            by_contra hne
            obtain ⟨_, hr⟩ := Nfun_support hs hM (j'' + 1) (by omega) 1 (by omega) hne
            have : kn knots (1 + (j'' + 1)) ≤ t := by
              exact le_trans (le_of_eq (by rw [Nat.add_comm])) hlo
            exact absurd hr (not_lt.mpr this)
          have hNhi : Nfun knots t (j'' + 1) (M - (j'' + 1)) = 0 := by
            by_contra hne
            obtain ⟨hl, _⟩ := Nfun_support hs hM (j'' + 1) (by omega)
              (M - (j'' + 1)) (by omega) hne
            have he : M - (j'' + 2) + 1 = M - (j'' + 1) := by omega
            rw [he] at hhi
            exact absurd hl (not_le.mpr hhi)
          have hIH : ∑ i ∈ Finset.Ico 1 (M - (j'' + 1) + 1),
              Nfun knots t (j'' + 1) i = 1 := by
            apply ih (by omega) (by omega)
            · exact le_trans (sorted_kn_mono hs (by omega) (by omega)) hlo
            · refine lt_of_lt_of_le hhi (sorted_kn_mono hs (by omega) (by omega))
          -- peel both ends of the induction hypothesis
          have hmid : ∑ i ∈ Finset.Ico 2 (M - (j'' + 1)),
              Nfun knots t (j'' + 1) i = 1 := by
            have h1 : (1 : ℕ) < M - (j'' + 1) + 1 := by omega
            rw [Finset.sum_eq_sum_Ico_succ_bot h1, hNlo, zero_add,
              show M - (j'' + 1) + 1 = (M - (j'' + 1)) + 1 by rfl,
              Finset.sum_Ico_succ_top (by omega), hNhi, add_zero] at hIH
            exact hIH
          have hU : M - (j'' + 1 + 1) + 1 = M - (j'' + 1) := by omega
          rw [hU]
          have hexp : ∀ i ∈ Finset.Ico 1 (M - (j'' + 1)),
              Nfun knots t (j'' + 1 + 1) i
                = dTerm knots t (j'' + 1) i + eTerm knots t (j'' + 1) (i + 1) :=
            fun i _ => Nfun_succ_eq knots t (j'' + 1) i (by omega)
          rw [Finset.sum_congr rfl hexp, Finset.sum_add_distrib]
          have hshift : ∑ i ∈ Finset.Ico 1 (M - (j'' + 1)),
              eTerm knots t (j'' + 1) (i + 1)
                = ∑ i ∈ Finset.Ico 2 (M - (j'' + 1) + 1), eTerm knots t (j'' + 1) i := by
            rw [← Finset.sum_Ico_add (eTerm knots t (j'' + 1)) 1 (M - (j'' + 1)) 1]
            exact Finset.sum_congr rfl (fun i _ => by rw [Nat.add_comm 1 i])
          rw [hshift]
          have hbot : ∑ i ∈ Finset.Ico 1 (M - (j'' + 1)), dTerm knots t (j'' + 1) i
              = dTerm knots t (j'' + 1) 1
                + ∑ i ∈ Finset.Ico 2 (M - (j'' + 1)), dTerm knots t (j'' + 1) i :=
            Finset.sum_eq_sum_Ico_succ_bot (by omega) _
          have htop : ∑ i ∈ Finset.Ico 2 (M - (j'' + 1) + 1), eTerm knots t (j'' + 1) i
              = (∑ i ∈ Finset.Ico 2 (M - (j'' + 1)), eTerm knots t (j'' + 1) i)
                + eTerm knots t (j'' + 1) (M - (j'' + 1)) :=
            Finset.sum_Ico_succ_top (by omega) _
          have hd1 : dTerm knots t (j'' + 1) 1 = 0 := by simp [dTerm, hNlo]
          have heU : eTerm knots t (j'' + 1) (M - (j'' + 1)) = 0 := by
            simp [eTerm, hNhi]
          rw [hbot, htop, hd1, heU, zero_add, add_zero, ← Finset.sum_add_distrib]
          have hmerge : ∑ i ∈ Finset.Ico 2 (M - (j'' + 1)),
              (dTerm knots t (j'' + 1) i + eTerm knots t (j'' + 1) i)
                = ∑ i ∈ Finset.Ico 2 (M - (j'' + 1)), Nfun knots t (j'' + 1) i := by
            refine Finset.sum_congr rfl (fun i hi => ?_)
            rw [Finset.mem_Ico] at hi
            exact dTerm_add_eTerm hs hM (j'' + 1) i (by omega) (by omega)
          rw [hmerge]
          exact hmid

lemma basis_sum_one (c : BSplineData) (t : ℚ)
    (hs : List.Sorted (· ≤ ·) c.knots)
    (hlen : c.knots.length = c.cp_count + c.order + 1)
    (hord : 1 ≤ c.order) (hn : 1 ≤ c.cp_count)
    (hlo : kn c.knots c.order ≤ t)
    (hhi : t < kn c.knots (c.cp_count + 1)) :
    (BSpline_basis c t).sum = 1 := by
  have hM : c.nplusc < c.knots.length := by rw [hlen, BSplineData.nplusc]; omega
  have hMval : c.nplusc = c.cp_count + c.order := rfl
  have hnp : 1 ≤ c.nplusc := by omega
  have hne : ¬ t = kn c.knots c.nplusc := by
    have h1 : kn c.knots (c.cp_count + 1) ≤ kn c.knots c.nplusc :=
      sorted_kn_mono hs (by omega) hM
    exact ne_of_lt (lt_of_lt_of_le hhi h1)
  rw [BSpline_basis]
  simp only [if_neg hne]
  rw [list_sum_getD, nbasisOf_length c.knots c.nplusc c.order t hnp,
    Finset.range_eq_Ico,
    ← Finset.sum_Ico_consecutive _ (Nat.zero_le (c.cp_count + 1)) (by omega),
    Finset.sum_eq_sum_Ico_succ_bot (Nat.succ_pos c.cp_count),
    nbasisOf_getD_zero, zero_add]
  have hmain : ∑ i ∈ Finset.Ico 1 (c.cp_count + 1),
      (nbasisOf c.knots c.nplusc c.order t).getD i 0 = 1 := by
    have hcongr : ∀ i ∈ Finset.Ico 1 (c.cp_count + 1),
        (nbasisOf c.knots c.nplusc c.order t).getD i 0 = Nfun c.knots t c.order i := by
      intro i hi
      rw [Finset.mem_Ico] at hi
      rw [nbasisOf_getD c.knots c.nplusc c.order t hnp hord i hi.1 (by omega)]
      rw [show min c.order (c.nplusc - i) = c.order from by omega]
    rw [Finset.sum_congr rfl hcongr]
    have hpart := Nfun_partition hs hM c.order hord (by omega) hlo
      (by rw [show c.nplusc - c.order + 1 = c.cp_count + 1 from by omega]; exact hhi)
    rw [show c.nplusc - c.order + 1 = c.cp_count + 1 from by omega] at hpart
    exact hpart
  have hstale : ∑ i ∈ Finset.Ico (c.cp_count + 1) c.nplusc,
      (nbasisOf c.knots c.nplusc c.order t).getD i 0 = 0 := by
    apply Finset.sum_eq_zero
    intro i hi
    rw [Finset.mem_Ico] at hi
    rw [nbasisOf_getD c.knots c.nplusc c.order t hnp hord i (by omega) (by omega)]
    rw [show min c.order (c.nplusc - i) = c.nplusc - i from by omega]
    by_contra hne0
    obtain ⟨hl, _⟩ := Nfun_support hs hM (c.nplusc - i) (by omega) i (by omega) hne0
    have : kn c.knots (c.cp_count + 1) ≤ kn c.knots i :=
      sorted_kn_mono hs (by omega) (by omega)
    exact absurd (lt_of_lt_of_le hhi (le_trans this hl)) (lt_irrefl t)
  rw [hmain, hstale, add_zero]

/-! ### Closed form of the open-uniform knot vector -/

lemma kouVal_mono (n order : ℕ) : ∀ i j, i ≤ j → kouVal n order i ≤ kouVal n order j := by
  intro i j hij
  induction j with
  | zero => simp_all
  | succ j ih =>
      rcases Nat.lt_or_ge i (j + 1) with h | h
      · refine le_trans (ih (by omega)) ?_
        rw [kouVal]
        split
        · linarith
        · linarith
      · rw [show i = j + 1 from by omega]

lemma kou_length (n order : ℕ) : (knot_open_uniform n order).length = n + order + 1 := by
  simp [knot_open_uniform]

lemma kou_getD (n order i : ℕ) (h : i < n + order + 1) :
    kn (knot_open_uniform n order) i = kouVal n order i := by
  rw [kn, knot_open_uniform, List.getD_eq_getElem?_getD, List.getElem?_map,
    List.getElem?_eq_getElem (by simpa using h)]
  simp

lemma kou_sorted (n order : ℕ) : List.Sorted (· ≤ ·) (knot_open_uniform n order) := by
  rw [knot_open_uniform, List.Sorted, List.pairwise_map]
  exact (List.pairwise_lt_range _).imp (fun h => kouVal_mono n order _ _ (le_of_lt h))

lemma kouVal_of_le_order (n order : ℕ) : ∀ i, i ≤ order → kouVal n order i = 0 := by
  intro i
  induction i with
  | zero => intro _; rfl
  | succ i ih =>
      intro h
      rw [kouVal, if_neg (by omega), add_zero]
      exact ih (by omega)

lemma kouVal_mid (n order : ℕ) (hord : 1 ≤ order) :
    ∀ i, order ≤ i → i ≤ n + 1 → kouVal n order i = (i : ℚ) - (order : ℚ) := by
  intro i
  induction i with
  | zero =>
      intro h1 _
      rw [kouVal_of_le_order n order 0 (by omega)]
      have : order = 0 := by omega
      omega
  | succ i ih =>
      intro h1 h2
      rcases Nat.lt_or_ge i order with h | h
      · have he : i + 1 = order := by omega
        rw [kouVal_of_le_order n order (i + 1) (by omega), he]
        ring
      · rw [kouVal, if_pos (by omega), ih h (by omega)]
        push_cast
        ring

lemma kouVal_high (n order : ℕ) :
    ∀ i, n + 1 ≤ i → kouVal n order i = kouVal n order (n + 1) := by
  intro i
  induction i with
  | zero => intro h; rw [show n + 1 = 0 from by omega]
  | succ i ih =>
      intro h
      rcases Nat.lt_or_ge i (n + 1) with h' | h'
      · rw [show i + 1 = n + 1 from by omega]
      · rw [kouVal, if_neg (by omega), add_zero]
        exact ih h'

/-! ### The basis at the endpoints of an open-uniform curve -/

lemma kou_max (n k : ℕ) (h1 : 1 ≤ k) (hkn : k ≤ n) :
    kn (knot_open_uniform n k) (n + k) = (n : ℚ) + 1 - (k : ℚ) := by
  rw [kou_getD n k (n + k) (by omega), kouVal_high n k (n + k) (by omega),
    kouVal_mid n k h1 (n + 1) (by omega) (by omega)]
  push_cast
  ring

lemma Nfun_kou_level1 (n k : ℕ) (h1 : 1 ≤ k) (hkn : k ≤ n) (i : ℕ) :
    Nfun (knot_open_uniform n k) 0 1 i = if i = k then 1 else 0 := by
  rw [Nfun]
  by_cases hi : i = k
  · have ha : kn (knot_open_uniform n k) k = 0 := by
      rw [kou_getD n k k (by omega), kouVal_of_le_order n k k le_rfl]
    have hb : 0 < kn (knot_open_uniform n k) (k + 1) := by
      rw [kou_getD n k (k + 1) (by omega),
        kouVal_mid n k h1 (k + 1) (by omega) (by omega)]
      push_cast
      linarith
    rw [if_pos hi, hi, if_pos ⟨le_of_eq ha, hb⟩]
  · rw [if_neg hi, if_neg]
    intro hc
    rcases Nat.lt_or_ge i k with h | h
    · have h0 : kn (knot_open_uniform n k) (i + 1) = 0 := by
        rw [kou_getD n k (i + 1) (by omega), kouVal_of_le_order n k (i + 1) (by omega)]
      rw [h0] at hc
      exact absurd hc.2 (lt_irrefl 0)
    · have h' : k < i := by omega
      rcases Nat.lt_or_ge i (n + k + 1) with hin | hin
      · have hpos : 0 < kn (knot_open_uniform n k) i := by
          rcases Nat.lt_or_ge i (n + 2) with hmid | hhigh
          · rw [kou_getD n k i (by omega), kouVal_mid n k h1 i (by omega) (by omega)]
            have hcast : (k : ℚ) + 1 ≤ (i : ℚ) := by exact_mod_cast h'
            linarith
          · rw [kou_getD n k i (by omega), kouVal_high n k i (by omega),
              kouVal_mid n k h1 (n + 1) (by omega) (by omega)]
            have hcast : (k : ℚ) + 1 ≤ (n : ℚ) + 1 := by
              have h2 := Nat.succ_le_succ hkn
              exact_mod_cast h2
            push_cast
            linarith
        exact absurd hc.1 (not_le.mpr hpos)
      · have h0 : kn (knot_open_uniform n k) (i + 1) = 0 :=
          getD_of_len_le _ _ (by rw [kou_length]; omega)
        rw [h0] at hc
        exact absurd hc.2 (lt_irrefl 0)

lemma Nfun_kou_at_zero (n k : ℕ) (h2 : 2 ≤ k) (hkn : k ≤ n) :
    ∀ j, 1 ≤ j → j ≤ k → ∀ i,
      Nfun (knot_open_uniform n k) 0 j i = if i = k - j + 1 then 1 else 0 := by
  intro j
  induction j with
  | zero => omega
  | succ j' ih =>
      cases j' with
      | zero =>
          intro _ _ i
          rw [Nfun_kou_level1 n k (by omega) hkn i,
            show k - 1 + 1 = k from by omega]
      | succ j'' =>
          intro _ hjk i
          have hj1 : 1 ≤ j'' + 1 := by omega
          have hjk1 : j'' + 1 ≤ k := by omega
          show combK (knot_open_uniform n k) 0 (j'' + 2)
            (Nfun (knot_open_uniform n k) 0 (j'' + 1) i)
            (Nfun (knot_open_uniform n k) 0 (j'' + 1) (i + 1)) i
            = if i = k - (j'' + 1 + 1) + 1 then 1 else 0
          rw [combK, ih hj1 hjk1 i, ih hj1 hjk1 (i + 1),
            show k - (j'' + 1 + 1) + 1 = k - (j'' + 1) from by omega]
          by_cases hi : i = k - (j'' + 1)
          · have hA : (if i = k - (j'' + 1) + 1 then (1 : ℚ) else 0) = 0 :=
              if_neg (by omega)
            have hB : (if i + 1 = k - (j'' + 1) + 1 then (1 : ℚ) else 0) = 1 :=
              if_pos (by omega)
            have e1 : kn (knot_open_uniform n k) (i + (j'' + 2)) = 1 := by
              rw [show i + (j'' + 2) = k + 1 from by omega,
                kou_getD n k (k + 1) (by omega),
                kouVal_mid n k (by omega) (k + 1) (by omega) (by omega)]
              push_cast
              ring
            have e2 : kn (knot_open_uniform n k) (i + 1) = 0 := by
              rw [kou_getD n k (i + 1) (by omega),
                kouVal_of_le_order n k (i + 1) (by omega)]
            rw [hA, hB, if_pos hi, e1, e2]
            norm_num
          · have hB : (if i + 1 = k - (j'' + 1) + 1 then (1 : ℚ) else 0) = 0 :=
              if_neg (by omega)
            by_cases ha : i = k - (j'' + 1) + 1
            · have hA : (if i = k - (j'' + 1) + 1 then (1 : ℚ) else 0) = 1 := if_pos ha
              have e0 : kn (knot_open_uniform n k) i = 0 := by
                rw [ha, kou_getD n k _ (by omega), kouVal_of_le_order n k _ (by omega)]
              rw [hA, hB, if_neg hi, e0]
              norm_num
            · have hA : (if i = k - (j'' + 1) + 1 then (1 : ℚ) else 0) = 0 := if_neg ha
              rw [hA, hB, if_neg hi]
              norm_num

lemma Nfun_eq_zero_of_ge (knots : List ℚ) (t : ℚ) (hall : ∀ a, kn knots a ≤ t) :
    ∀ j i, Nfun knots t j i = 0 := by
  intro j
  induction j with
  | zero => intro i; rfl
  | succ j' ih =>
      cases j' with
      | zero =>
          intro i
          rw [Nfun, if_neg]
          intro hc
          exact absurd hc.2 (not_lt.mpr (hall (i + 1)))
      | succ j'' =>
          intro i
          show combK knots t (j'' + 2) (Nfun knots t (j'' + 1) i)
            (Nfun knots t (j'' + 1) (i + 1)) i = 0
          rw [combK, ih i, ih (i + 1)]
          norm_num

lemma wsum_single (nb : List ℚ) (cps : List Vec3) (npts : ℕ) (f : Vec3 → ℚ) (i0 : ℕ)
    (hlo : 1 ≤ i0) (hhi : i0 ≤ npts)
    (h : ∀ i, 1 ≤ i → i ≤ npts → nb.getD i 0 = if i = i0 then 1 else 0) :
    wsum nb cps npts f = f (cps.getD i0 Vec3.zero) := by
  rw [wsum, range'_map_sum]
  have hcongr : ∀ i ∈ Finset.Ico 1 (1 + npts),
      nb.getD i 0 * f (cps.getD i Vec3.zero)
        = if i = i0 then f (cps.getD i Vec3.zero) else 0 := by
    intro i hi
    rw [Finset.mem_Ico] at hi
    rw [h i hi.1 (by omega)]
    split
    · rw [one_mul]
    · rw [zero_mul]
  rw [Finset.sum_congr rfl hcongr,
    Finset.sum_ite_eq' (Finset.Ico 1 (1 + npts)) i0
      (fun i => f (cps.getD i Vec3.zero)),
    if_pos (by rw [Finset.mem_Ico]; omega)]

lemma basis_open_at_zero (cps : List Vec3) (k : ℕ) (h2 : 2 ≤ k) (hkn : k ≤ cps.length) :
    ∀ m, 1 ≤ m → m ≤ cps.length →
      (BSpline_basis (BSpline_init cps k none) 0).getD m 0 = if m = 1 then 1 else 0 := by
  intro m hm1 hm2
  have hmax : kn (knot_open_uniform cps.length k) (cps.length + k)
      = (cps.length : ℚ) + 1 - (k : ℚ) := kou_max cps.length k (by omega) hkn
  have hne : ¬ (0 : ℚ) = kn (knot_open_uniform cps.length k) (cps.length + k) := by
    rw [hmax]
    have hc : (k : ℚ) ≤ (cps.length : ℚ) := by exact_mod_cast hkn
    intro h0
    linarith
  rw [BSpline_basis]
  simp only [BSpline_init, BSplineData.nplusc, one_based_array, Option.getD]
  rw [if_neg hne]
  rw [nbasisOf_getD _ _ _ _ (by omega) (by omega) m hm1 (by omega),
    show min k (cps.length + k - m) = k from by omega,
    Nfun_kou_at_zero cps.length k h2 hkn k (by omega) le_rfl m,
    show k - k + 1 = 1 from by omega]

lemma basis_open_at_max (cps : List Vec3) (k : ℕ) (h2 : 2 ≤ k) (hkn : k ≤ cps.length) :
    ∀ m, 1 ≤ m → m ≤ cps.length →
      (BSpline_basis (BSpline_init cps k none)
          (kn (knot_open_uniform cps.length k) (cps.length + k))).getD m 0
        = if m = cps.length then 1 else 0 := by
  intro m hm1 hm2
  have hall : ∀ a, kn (knot_open_uniform cps.length k) a
      ≤ kn (knot_open_uniform cps.length k) (cps.length + k) := by
    intro a
    rcases Nat.lt_or_ge a (cps.length + k + 1) with ha | ha
    · exact sorted_kn_mono (kou_sorted cps.length k) (by omega) (by rw [kou_length]; omega)
    · rw [kn, getD_of_len_le _ _ (by rw [kou_length]; omega)]
      rw [kou_max cps.length k (by omega) hkn]
      have hc : (k : ℚ) ≤ (cps.length : ℚ) := by exact_mod_cast hkn
      linarith
  rw [BSpline_basis]
  simp only [BSpline_init, BSplineData.nplusc, one_based_array, Option.getD]
  rw [if_pos trivial]
  by_cases hm : m = cps.length
  · rw [if_pos hm, hm]
    exact getD_set_self _ _ _ (by rw [nbasisOf_length _ _ _ _ (by omega)]; omega)
  · rw [if_neg hm, getD_set_ne _ _ _ _ (fun hc => hm hc.symm)]
    rw [nbasisOf_getD _ _ _ _ (by omega) (by omega) m hm1 (by omega)]
    exact Nfun_eq_zero_of_ge _ _ hall _ m

/-! ### The value-form basis never divides by zero on a non-decreasing knot vector -/

lemma basisStepE_some (knots : List ℚ) (t : ℚ) (k : ℕ) (nb : List ℚ) (i : ℕ)
    (h1 : nb.getD i 0 ≠ 0 → kn knots (i + k - 1) - kn knots i ≠ 0)
    (h2 : nb.getD (i + 1) 0 ≠ 0 → kn knots (i + k) - kn knots (i + 1) ≠ 0) :
    basisStepE knots t k nb i = some (basisStep knots t k nb i) := by
  by_cases ha : nb.getD i 0 = 0
  · by_cases hb : nb.getD (i + 1) 0 = 0
    · simp only [List.getD_eq_getElem?_getD] at ha hb
      simp [basisStepE, basisStep, combK, ha, hb]
    · have hden2 := h2 hb
      simp only [List.getD_eq_getElem?_getD] at ha hb
      simp [basisStepE, basisStep, combK, divE, ha, hb, hden2]
  · by_cases hb : nb.getD (i + 1) 0 = 0
    · have hden1 := h1 ha
      simp only [List.getD_eq_getElem?_getD] at ha hb
      simp [basisStepE, basisStep, combK, divE, ha, hb, hden1]
    · have hden1 := h1 ha
      have hden2 := h2 hb
      simp only [List.getD_eq_getElem?_getD] at ha hb
      simp [basisStepE, basisStep, combK, divE, ha, hb, hden1, hden2]

lemma foldlM_basisStepE_some (knots : List ℚ) (t : ℚ) (k : ℕ) (nb : List ℚ) :
    ∀ cnt, (∀ i, 1 ≤ i → i ≤ cnt →
      (nb.getD i 0 ≠ 0 → kn knots (i + k - 1) - kn knots i ≠ 0) ∧
      (nb.getD (i + 1) 0 ≠ 0 → kn knots (i + k) - kn knots (i + 1) ≠ 0)) →
    (List.range' 1 cnt).foldlM (basisStepE knots t k) nb
      = some ((List.range' 1 cnt).foldl (basisStep knots t k) nb) := by
  intro cnt
  induction cnt with
  | zero => intro _; rfl
  | succ c ih =>
      intro H
      rw [List.range'_concat, List.foldlM_append, List.foldl_append,
        show 1 + 1 * c = c + 1 by ring,
        ih (fun i hi1 hi2 => H i hi1 (by omega))]
      simp only [Option.bind_eq_bind, Option.some_bind, List.foldlM_cons,
        List.foldlM_nil, List.foldl_cons, List.foldl_nil]
      have hu1 := foldl_basisStep_untouched knots t k nb c (c + 1) (by omega)
      have hu2 := foldl_basisStep_untouched knots t k nb c (c + 2) (by omega)
      rw [basisStepE_some knots t k _ (c + 1)
          (by rw [hu1]; exact (H (c + 1) (by omega) le_rfl).1)
          (by rw [show c + 1 + 1 = c + 2 from rfl, hu2]
              exact (H (c + 1) (by omega) le_rfl).2)]
      simp

lemma basisLevelsAuxE_succ (knots : List ℚ) (nplusc : ℕ) (t : ℚ) (cnt : ℕ) :
    basisLevelsAuxE knots nplusc t (cnt + 1)
      = (basisLevelsAuxE knots nplusc t cnt).bind
          (fun nb => (List.range' 1 (nplusc - (cnt + 2))).foldlM
            (basisStepE knots t (cnt + 2)) nb) := by
  rw [basisLevelsAuxE, List.range'_concat, List.foldlM_append,
    show 2 + 1 * cnt = cnt + 2 by ring]
  rw [basisLevelsAuxE]
  rcases hE : (List.range' 2 cnt).foldlM
      (fun acc k => (List.range' 1 (nplusc - k)).foldlM (basisStepE knots t k) acc)
      (create_nbasis knots nplusc t) with _ | nb
  · rfl
  · simp

lemma basisLevelsAuxE_some {knots : List ℚ} {t : ℚ} (hs : List.Sorted (· ≤ ·) knots)
    {nplusc : ℕ} (hlen : nplusc < knots.length) (hnp : 1 ≤ nplusc) :
    ∀ cnt, basisLevelsAuxE knots nplusc t cnt
      = some (basisLevelsAux knots nplusc t cnt) := by
  intro cnt
  induction cnt with
  | zero => rfl
  | succ c ih =>
      rw [basisLevelsAuxE_succ, ih, Option.some_bind, basisLevelsAux_succ]
      apply foldlM_basisStepE_some
      intro i hi1 hi2
      have hA1 : (basisLevelsAux knots nplusc t c).getD i 0 = Nfun knots t (c + 1) i := by
        rw [basisLevelsAux_getD knots nplusc t hnp c i hi1 (by omega),
          show min (c + 1) (nplusc - i) = c + 1 from by omega]
      have hA2 : (basisLevelsAux knots nplusc t c).getD (i + 1) 0
          = Nfun knots t (c + 1) (i + 1) := by
        rw [basisLevelsAux_getD knots nplusc t hnp c (i + 1) (by omega) (by omega),
          show min (c + 1) (nplusc - (i + 1)) = c + 1 from by omega]
      constructor
      · intro hne
        rw [hA1] at hne
        obtain ⟨hl, hr⟩ := Nfun_support hs hlen (c + 1) (by omega) i (by omega) hne
        rw [show i + (c + 2) - 1 = i + (c + 1) from by omega]
        exact sub_ne_zero_of_ne (ne_of_gt (lt_of_le_of_lt hl hr))
      · intro hne
        rw [hA2] at hne
        obtain ⟨hl, hr⟩ := Nfun_support hs hlen (c + 1) (by omega) (i + 1) (by omega) hne
        rw [show i + 1 + (c + 1) = i + (c + 2) from by omega] at hr
        exact sub_ne_zero_of_ne (ne_of_gt (lt_of_le_of_lt hl hr))

lemma BSpline_basisE_some (c : BSplineData) (t : ℚ)
    (hs : List.Sorted (· ≤ ·) c.knots)
    (hlen : c.knots.length = c.cp_count + c.order + 1)
    (hord : 1 ≤ c.order) :
    BSpline_basisE c t = some (BSpline_basis c t) := by
  have hlen' : c.nplusc < c.knots.length := by
    rw [hlen, BSplineData.nplusc]
    omega
  have hnp : 1 ≤ c.nplusc := by
    rw [BSplineData.nplusc]
    omega
  have hE : nbasisOfE c.knots c.nplusc c.order t
      = some (nbasisOf c.knots c.nplusc c.order t) :=
    basisLevelsAuxE_some hs hlen' hnp (c.order - 1)
  rw [BSpline_basisE, BSpline_basis, hE, Option.map_some']

/-! ### Helpers for `knot_closed`, `weighting` and `point` -/

lemma getItem_ok {a : Type} (l : List a) (i : ℕ) (d : a) (h : i < l.length) :
    getItem l i = Except.ok (l.getD i d) := by
  rcases hg : l.get? i with _ | x
  · exact absurd (List.get?_eq_none.mp hg) (by omega)
  · have hd : l.getD i d = x := by
      rw [List.getD_eq_getElem?_getD, ← List.get?_eq_getElem?, hg]
      rfl
    rw [getItem, hg, hd]

lemma getItem_oob {a : Type} (l : List a) (i : ℕ) (h : l.length ≤ i) :
    getItem l i = Except.error PyErr.indexError := by
  rw [getItem, List.get?_eq_none.mpr h]

lemma exceptMap_error {E : Except PyErr (List ℚ)} (w : List ℚ → List ℚ) (e : PyErr)
    (h : E = Except.error e) : E.map w = Except.error e := by
  rw [h]; rfl

lemma exceptMap_error_inv {E : Except PyErr (List ℚ)} {w : List ℚ → List ℚ} {e : PyErr}
    (h : E.map w = Except.error e) : E = Except.error e := by
  rcases E with e' | v
  · have hr : (Except.error e' : Except PyErr (List ℚ)).map w = Except.error e' := rfl
    rw [hr] at h
    exact h
  · have hr : (Except.ok v : Except PyErr (List ℚ)).map w = Except.ok (w v) := rfl
    rw [hr] at h
    exact Except.noConfusion h

lemma exMap_ok_of_forall {a b : Type} (f : a → Except PyErr b) (g : a → b) :
    ∀ l : List a, (∀ x ∈ l, f x = Except.ok (g x)) → exMap f l = Except.ok (l.map g)
  | [], _ => rfl
  | x :: l, h => by
      rw [exMap, h x (by simp),
        exMap_ok_of_forall f g l (fun y hy => h y (by simp [hy]))]
      rfl

lemma exMap_error_first {a b : Type} (f : a → Except PyErr b) (e : PyErr) :
    ∀ (l1 : List a) (x : a) (l2 : List a), (∀ y ∈ l1, ∃ v, f y = Except.ok v) →
      f x = Except.error e → exMap f (l1 ++ x :: l2) = Except.error e
  | [], x, l2, _, hfx => by
      rw [List.nil_append, exMap, hfx]
      rfl
  | y :: l1, x, l2, h, hfx => by
      obtain ⟨v, hv⟩ := h y (by simp)
      rw [List.cons_append, exMap, hv,
        exMap_error_first f e l1 x l2 (fun z hz => h z (by simp [hz])) hfx]
      rfl

lemma exMap_error_head {a b : Type} (f : a → Except PyErr b) (e : PyErr) (x : a)
    (l : List a) (hfx : f x = Except.error e) : exMap f (x :: l) = Except.error e := by
  rw [exMap, hfx]
  rfl

lemma exMap_ne_error_of_forall {a b : Type} (f : a → Except PyErr b) (e : PyErr) :
    ∀ l : List a, (∀ x ∈ l, f x ≠ Except.error e) → exMap f l ≠ Except.error e
  | [], _ => by intro hc; exact Except.noConfusion hc
  | x :: l, h => by
      intro hc
      rcases hfx : f x with e' | v
      · have hred : exMap f (x :: l) = Except.error e' := by rw [exMap, hfx]; rfl
        rw [hred] at hc
        exact h x (by simp) (by rw [hfx, Except.error.inj hc])
      · rcases hMl : exMap f l with e2 | ys
        · have hred : exMap f (x :: l) = Except.error e2 := by
            rw [exMap, hfx, hMl]
            rfl
          rw [hred] at hc
          exact exMap_ne_error_of_forall f e l (fun z hz => h z (by simp [hz]))
            (by rw [hMl, Except.error.inj hc])
        · have hred : exMap f (x :: l) = Except.ok (v :: ys) := by
            rw [exMap, hfx, hMl]
            rfl
          rw [hred] at hc
          exact Except.noConfusion hc

lemma spacingOf_length (dist : Vec3 → Vec3 → ℚ) (cps : List Vec3) :
    (spacingOf dist cps).length = cps.length - 1 - 1 := by
  rw [spacingOf, List.length_map, List.length_range']

lemma knot_closed_spacing (dist : Vec3 → Vec3 → ℚ) (cps : List Vec3) :
    exMap (fun i => do
        let a ← getItem cps (i - 1)
        let b ← getItem cps i
        pure (dist a b)) (List.range' 2 (cps.length - 1 - 1))
      = Except.ok (spacingOf dist cps) := by
  rw [spacingOf]
  apply exMap_ok_of_forall
  intro i hi
  rw [List.mem_range'] at hi
  obtain ⟨j, hj, rfl⟩ := hi
  have h1 : 2 + 1 * j - 1 < cps.length := by omega
  have h2 : 2 + 1 * j < cps.length := by omega
  rw [getItem_ok cps (2 + 1 * j - 1) Vec3.zero h1, getItem_ok cps (2 + 1 * j) Vec3.zero h2]
  rfl

lemma kcBody_ok (spacing : List ℚ) (D maxc : ℚ) (i : ℕ) (hD : D ≠ 0)
    (hi : i < spacing.length) (hm : maxc ≠ 0) :
    kcBody spacing D maxc i
      = Except.ok (((i : ℚ) / D * spacing.getD i 0 + (spacing.take i).sum) / maxc * D) := by
  rw [kcBody, divErr, if_neg hD]
  show (do
      let sp ← getItem spacing i
      let r ← divErr ((i : ℚ) / D * sp + (spacing.take i).sum) maxc
      pure (r * D) : Except PyErr ℚ)
    = Except.ok (((i : ℚ) / D * spacing.getD i 0 + (spacing.take i).sum) / maxc * D)
  rw [getItem_ok spacing i 0 hi]
  show (do
      let r ← divErr ((i : ℚ) / D * spacing.getD i 0 + (spacing.take i).sum) maxc
      pure (r * D) : Except PyErr ℚ)
    = Except.ok (((i : ℚ) / D * spacing.getD i 0 + (spacing.take i).sum) / maxc * D)
  rw [divErr, if_neg hm]
  rfl

lemma kcBody_indexError (spacing : List ℚ) (D maxc : ℚ) (i : ℕ) (hD : D ≠ 0)
    (hi : spacing.length ≤ i) :
    kcBody spacing D maxc i = Except.error PyErr.indexError := by
  rw [kcBody, divErr, if_neg hD]
  show (do
      let sp ← getItem spacing i
      let r ← divErr ((i : ℚ) / D * sp + (spacing.take i).sum) maxc
      pure (r * D) : Except PyErr ℚ)
    = Except.error PyErr.indexError
  rw [getItem_oob spacing i hi]
  rfl

lemma kcBody_zeroDiv (spacing : List ℚ) (D maxc : ℚ) (i : ℕ) (hD : D ≠ 0)
    (hi : i < spacing.length) (hm : maxc = 0) :
    kcBody spacing D maxc i = Except.error PyErr.zeroDivisionError := by
  subst hm
  rw [kcBody, divErr, if_neg hD]
  show (do
      let sp ← getItem spacing i
      let r ← divErr ((i : ℚ) / D * sp + (spacing.take i).sum) (0 : ℚ)
      pure (r * D) : Except PyErr ℚ)
    = Except.error PyErr.zeroDivisionError
  rw [getItem_ok spacing i 0 hi]
  show (do
      let r ← divErr ((i : ℚ) / D * spacing.getD i 0 + (spacing.take i).sum) (0 : ℚ)
      pure (r * D) : Except PyErr ℚ)
    = Except.error PyErr.zeroDivisionError
  rw [divErr, if_pos rfl]
  rfl

lemma kcBody_D_zero (spacing : List ℚ) (D maxc : ℚ) (i : ℕ) (hD : D = 0) :
    kcBody spacing D maxc i = Except.error PyErr.zeroDivisionError := by
  subst hD
  rw [kcBody, divErr, if_pos rfl]
  rfl

lemma kcBody_ne_indexError (spacing : List ℚ) (D maxc : ℚ) (i : ℕ)
    (hi : i < spacing.length) :
    kcBody spacing D maxc i ≠ Except.error PyErr.indexError := by
  by_cases hD : D = 0
  · rw [kcBody_D_zero spacing D maxc i hD]
    intro hc
    exact PyErr.noConfusion (Except.error.inj hc)
  · by_cases hm : maxc = 0
    · rw [kcBody_zeroDiv spacing D maxc i hD hi hm]
      intro hc
      exact PyErr.noConfusion (Except.error.inj hc)
    · rw [kcBody_ok spacing D maxc i hD hi hm]
      intro hc
      exact Except.noConfusion hc

lemma kc_D_ne_zero (cps : List Vec3) (h3 : 3 ≤ cps.length) :
    ((cps.length - 1 : ℕ) : ℚ) - ((2 : ℕ) : ℚ) + 2 ≠ 0 := by
  have h2 : (2 : ℚ) ≤ ((cps.length - 1 : ℕ) : ℚ) := by
    exact_mod_cast (by omega : 2 ≤ cps.length - 1)
  have h22 : ((2 : ℕ) : ℚ) = 2 := by norm_num
  rw [h22]
  intro hc
  linarith

lemma knot_closed_order2_indexError (dist : Vec3 → Vec3 → ℚ) (cps : List Vec3)
    (h3 : 3 ≤ cps.length) (hm : (spacingOf dist cps).sum ≠ 0) :
    knot_closed dist cps 2 = Except.error PyErr.indexError := by
  have hD := kc_D_ne_zero cps h3
  simp only [knot_closed]
  split
  · rename_i e heq
    rw [knot_closed_spacing] at heq
    exact absurd heq (by simp)
  · rename_i spacing heq
    rw [knot_closed_spacing] at heq
    obtain rfl : spacingOf dist cps = spacing := Except.ok.inj heq
    apply exceptMap_error
    have hlist : List.range' 1 (cps.length - 1 + 1 - 2)
        = List.range' 1 (cps.length - 3) ++ [cps.length - 2] := by
      rw [(by omega : cps.length - 1 + 1 - 2 = (cps.length - 3) + 1), List.range'_concat,
        (by omega : 1 + 1 * (cps.length - 3) = cps.length - 2)]
    rw [hlist]
    have key : exMap
        (kcBody (spacingOf dist cps)
          (((cps.length - 1 : ℕ) : ℚ) - ((2 : ℕ) : ℚ) + 2) (spacingOf dist cps).sum)
        (List.range' 1 (cps.length - 3) ++ [cps.length - 2])
        = Except.error PyErr.indexError := by
      apply exMap_error_first
      · intro y hy
        rw [List.mem_range'] at hy
        obtain ⟨j, hj, rfl⟩ := hy
        exact ⟨_, kcBody_ok _ _ _ _ hD (by rw [spacingOf_length]; omega) hm⟩
      · exact kcBody_indexError _ _ _ _ hD (by rw [spacingOf_length]; omega)
    exact key

lemma knot_closed_order2_zeroDiv (dist : Vec3 → Vec3 → ℚ) (cps : List Vec3)
    (h4 : 4 ≤ cps.length) (hm : (spacingOf dist cps).sum = 0) :
    knot_closed dist cps 2 = Except.error PyErr.zeroDivisionError := by
  have hD := kc_D_ne_zero cps (by omega)
  simp only [knot_closed]
  split
  · rename_i e heq
    rw [knot_closed_spacing] at heq
    exact absurd heq (by simp)
  · rename_i spacing heq
    rw [knot_closed_spacing] at heq
    obtain rfl : spacingOf dist cps = spacing := Except.ok.inj heq
    apply exceptMap_error
    have hlist : List.range' 1 (cps.length - 1 + 1 - 2)
        = 1 :: List.range' 2 (cps.length - 3) := by
      rw [(by omega : cps.length - 1 + 1 - 2 = (cps.length - 3) + 1), List.range'_succ]
    rw [hlist]
    have key : exMap
        (kcBody (spacingOf dist cps)
          (((cps.length - 1 : ℕ) : ℚ) - ((2 : ℕ) : ℚ) + 2) (spacingOf dist cps).sum)
        (1 :: List.range' 2 (cps.length - 3))
        = Except.error PyErr.zeroDivisionError := by
      apply exMap_error_head
      exact kcBody_zeroDiv _ _ _ _ hD (by rw [spacingOf_length]; omega) hm
    exact key

lemma knot_closed_len3_indexError (dist : Vec3 → Vec3 → ℚ) (cps : List Vec3)
    (h3 : cps.length = 3) :
    knot_closed dist cps 2 = Except.error PyErr.indexError := by
  have hD := kc_D_ne_zero cps (by omega)
  simp only [knot_closed]
  split
  · rename_i e heq
    rw [knot_closed_spacing] at heq
    exact absurd heq (by simp)
  · rename_i spacing heq
    rw [knot_closed_spacing] at heq
    obtain rfl : spacingOf dist cps = spacing := Except.ok.inj heq
    apply exceptMap_error
    have hlist : List.range' 1 (cps.length - 1 + 1 - 2) = 1 :: List.range' 2 0 := by
      rw [(by omega : cps.length - 1 + 1 - 2 = 0 + 1), List.range'_succ]
    rw [hlist]
    have key : exMap
        (kcBody (spacingOf dist cps)
          (((cps.length - 1 : ℕ) : ℚ) - ((2 : ℕ) : ℚ) + 2) (spacingOf dist cps).sum)
        (1 :: List.range' 2 0)
        = Except.error PyErr.indexError := by
      apply exMap_error_head
      exact kcBody_indexError _ _ _ _ hD (by rw [spacingOf_length]; omega)
    exact key

lemma knot_closed_no_indexError (dist : Vec3 → Vec3 → ℚ) (cps : List Vec3) (k : ℕ)
    (hk : 3 ≤ k) :
    knot_closed dist cps k ≠ Except.error PyErr.indexError := by
  intro hc
  simp only [knot_closed] at hc
  split at hc
  · rename_i e heq
    rw [knot_closed_spacing] at heq
    exact absurd heq (by simp)
  · rename_i spacing heq
    rw [knot_closed_spacing] at heq
    obtain rfl : spacingOf dist cps = spacing := Except.ok.inj heq
    have hin := exceptMap_error_inv hc
    refine exMap_ne_error_of_forall
      (kcBody (spacingOf dist cps)
        (((cps.length - 1 : ℕ) : ℚ) - ((k : ℕ) : ℚ) + 2) (spacingOf dist cps).sum)
      PyErr.indexError (List.range' 1 (cps.length - 1 + 1 - k)) ?_ hin
    intro i hi
    rw [List.mem_range'] at hi
    obtain ⟨j, hj, rfl⟩ := hi
    exact kcBody_ne_indexError _ _ _ _ (by rw [spacingOf_length]; omega)

lemma one_based_map_getD (f : ℕ → ℚ) (npts i : ℕ) (h1 : 1 ≤ i) (h2 : i ≤ npts) :
    (one_based_array 0 ((List.range' 1 npts).map f)).getD i 0 = f i := by
  obtain ⟨i', rfl⟩ : ∃ i', i = i' + 1 := ⟨i - 1, by omega⟩
  rw [one_based_array, List.getD_cons_succ, List.getD_eq_getElem?_getD, List.getElem?_map,
    List.getElem?_eq_getElem (by simpa using (by omega : i' < npts))]
  simp [List.getElem_range', Nat.add_comm 1 i']

lemma BSpline_basis_length (c : BSplineData) (t : ℚ) (hnp : 1 ≤ c.cp_count + c.order) :
    (BSpline_basis c t).length = c.cp_count + c.order := by
  rw [BSpline_basis]
  split
  · rw [List.length_set]
    exact nbasisOf_length c.knots c.nplusc c.order t hnp
  · exact nbasisOf_length c.knots c.nplusc c.order t hnp

lemma point_eval_formula (max_t : ℚ) (bf : ℚ → List ℚ) (cps : List Vec3) (npts : ℕ)
    (t : ℚ) :
    point_eval max_t bf cps npts t
      = ⟨∑ i ∈ Finset.Ico 1 (npts + 1),
            (bf (if max_t - t < snap_tol then max_t else t)).getD i 0
              * (cps.getD i Vec3.zero).x,
         ∑ i ∈ Finset.Ico 1 (npts + 1),
            (bf (if max_t - t < snap_tol then max_t else t)).getD i 0
              * (cps.getD i Vec3.zero).y,
         ∑ i ∈ Finset.Ico 1 (npts + 1),
            (bf (if max_t - t < snap_tol then max_t else t)).getD i 0
              * (cps.getD i Vec3.zero).z⟩ := by
  rw [point_eval]
  simp only [wsum, range'_map_sum, Nat.add_comm 1 npts]

/-! ### Claim theorems -/

/-- Claim C1 (amended): only the open-uniform rational constructor `RBSpline.__init__`
validates `len(control_points) == len(weights)`, failing with a `ValueError` on
mismatch and storing one weight per control point (plus the 1-based dummy) on success;
the uniform/periodic `RBSplineU.__init__` performs no validation at all: it always
constructs, storing whatever weights were given. -/
theorem C1_rational_weight_validation (cps : List Vec3) (ws : List ℚ) (k : ℕ) :
    (cps.length ≠ ws.length → RBSpline_init cps ws k = Except.error rb_mismatch_msg) ∧
    (cps.length = ws.length →
      RBSpline_init cps ws k = Except.ok ⟨BSpline_init cps k none, 0 :: ws⟩ ∧
      ((0 : ℚ) :: ws).length = cps.length + 1) ∧
    RBSplineU_init cps ws k = ⟨BSplineU_init cps k none, 0 :: ws⟩ := by
  refine ⟨fun h => ?_, fun h => ⟨?_, ?_⟩, rfl⟩
  · rw [RBSpline_init, if_pos h]
  · rw [RBSpline_init, if_neg (not_not_intro h)]
    rfl
  · rw [List.length_cons, h]

/-- Claim C1 witness: with equal counts `RBSpline` constructs and stores the 1-based
weights; with different counts it raises the `ValueError`. -/
theorem C1_witness :
    RBSpline_init [⟨0, 0, 0⟩, ⟨1, 1, 1⟩] [2, 3] 4
      = Except.ok ⟨BSpline_init [⟨0, 0, 0⟩, ⟨1, 1, 1⟩] 4 none, [0, 2, 3]⟩ ∧
    RBSpline_init [⟨0, 0, 0⟩] [2, 3] 4 = Except.error rb_mismatch_msg :=
  ⟨((C1_rational_weight_validation [⟨0, 0, 0⟩, ⟨1, 1, 1⟩] [2, 3] 4).2.1
      (by decide)).1,
   (C1_rational_weight_validation [⟨0, 0, 0⟩] [2, 3] 4).1 (by decide)⟩

/-- Claim C1 counterexample: `RBSplineU` with 3 control points and only 2 weights
constructs successfully — no validation error — and the stored 1-based weight array
has 3 entries, not `3 + 1`: construction does not fail and counts stay mismatched. -/
theorem C1_counterexample :
    (RBSplineU_init [⟨0, 0, 0⟩, ⟨1, 0, 0⟩, ⟨2, 0, 0⟩] [5, 7] 3).weights = [0, 5, 7] ∧
    (RBSplineU_init [⟨0, 0, 0⟩, ⟨1, 0, 0⟩, ⟨2, 0, 0⟩] [5, 7] 3).base.cp_count = 3 ∧
    (RBSplineU_init [⟨0, 0, 0⟩, ⟨1, 0, 0⟩, ⟨2, 0, 0⟩] [5, 7] 3).weights.length
      ≠ (RBSplineU_init [⟨0, 0, 0⟩, ⟨1, 0, 0⟩, ⟨2, 0, 0⟩] [5, 7] 3).base.cp_count + 1 := by
  refine ⟨rfl, rfl, ?_⟩
  with_unfolding_all decide

/-- Claim C2 (amended): `BSpline.__init__` performs no control-point-count-vs-order
validation: with `N < k` construction still succeeds, producing a fully initialized
object (stored 1-based control points, a complete non-decreasing open-uniform knot
vector) and never raising. -/
theorem C2_no_construction_validation (cps : List Vec3) (k : ℕ) (h : cps.length < k) :
    (BSpline_init cps k none).cp_count < (BSpline_init cps k none).order ∧
    (BSpline_init cps k none).control_points = Vec3.zero :: cps ∧
    (BSpline_init cps k none).knots.length
      = (BSpline_init cps k none).cp_count + (BSpline_init cps k none).order + 1 ∧
    List.Sorted (· ≤ ·) (BSpline_init cps k none).knots := by
  exact ⟨h, rfl, kou_length cps.length k, kou_sorted cps.length k⟩

/-- Claim C2 witness: a concrete `N < k` construction succeeds, fully initialized. -/
theorem C2_witness :
    (BSpline_init [⟨1, 2, 3⟩] 3 none).cp_count < (BSpline_init [⟨1, 2, 3⟩] 3 none).order ∧
    (BSpline_init [⟨1, 2, 3⟩] 3 none).control_points = Vec3.zero :: [⟨1, 2, 3⟩] ∧
    (BSpline_init [⟨1, 2, 3⟩] 3 none).knots.length
      = (BSpline_init [⟨1, 2, 3⟩] 3 none).cp_count
        + (BSpline_init [⟨1, 2, 3⟩] 3 none).order + 1 ∧
    List.Sorted (· ≤ ·) (BSpline_init [⟨1, 2, 3⟩] 3 none).knots :=
  C2_no_construction_validation [⟨1, 2, 3⟩] 3 (by decide)

set_option maxRecDepth 8000 in
/-- Claim C2 counterexample: 2 control points with order 4 — the claim demands a
construction error, but a complete, usable curve object is produced: its fields are
fully populated and `point(0)` evaluates without error (returning the second control
point). -/
theorem C2_counterexample :
    BSpline_init [⟨1, 2, 3⟩, ⟨4, 5, 6⟩] 4 none
      = ⟨[Vec3.zero, ⟨1, 2, 3⟩, ⟨4, 5, 6⟩], 2, 4, [0, 0, 0, 0, 0, 0, 0]⟩ ∧
    BSpline_point (BSpline_init [⟨1, 2, 3⟩, ⟨4, 5, 6⟩] 4 none) 0 = ⟨4, 5, 6⟩ := by
  constructor
  · with_unfolding_all decide
  · with_unfolding_all decide

/-- Claim C3 (amended): the basis evaluator returns a vector of exactly `n + k`
entries (not `n + 1`): index 0 is the unused dummy, indices `1 .. n` carry the
order-`k` values, and the trailing `k - 1` slots are scratch from lower recursion
levels.  `point(t)` is the weighted sum of `basis[i] * control_point[i]` over
`i = 1 .. n`, with the basis evaluated at `t` after the `5e-6` endpoint snap. -/
theorem C3_basis_length_and_point_formula (c : BSplineData) (t : ℚ)
    (hord : 2 ≤ c.order) (hn : 1 ≤ c.cp_count) :
    (BSpline_basis c t).length = c.cp_count + c.order ∧
    (BSpline_basis c t).getD 0 0 = 0 ∧
    BSpline_point c t
      = ⟨∑ i ∈ Finset.Ico 1 (c.cp_count + 1),
            (BSpline_basis c
                (if BSpline_max_t c - t < snap_tol then BSpline_max_t c else t)).getD i 0
              * (c.control_points.getD i Vec3.zero).x,
         ∑ i ∈ Finset.Ico 1 (c.cp_count + 1),
            (BSpline_basis c
                (if BSpline_max_t c - t < snap_tol then BSpline_max_t c else t)).getD i 0
              * (c.control_points.getD i Vec3.zero).y,
         ∑ i ∈ Finset.Ico 1 (c.cp_count + 1),
            (BSpline_basis c
                (if BSpline_max_t c - t < snap_tol then BSpline_max_t c else t)).getD i 0
              * (c.control_points.getD i Vec3.zero).z⟩ := by
  refine ⟨BSpline_basis_length c t (by omega), ?_, ?_⟩
  · rw [BSpline_basis]
    split
    · rw [getD_set_ne _ _ _ _ (by omega), nbasisOf_getD_zero]
    · rw [nbasisOf_getD_zero]
  · exact point_eval_formula (BSpline_max_t c) (BSpline_basis c) c.control_points
      c.cp_count t

/-- Claim C3 witness: the amended length statement at a concrete curve. -/
theorem C3_witness :
    (BSpline_basis (BSpline_init [⟨1, 0, 0⟩, ⟨2, 0, 0⟩, ⟨3, 0, 0⟩] 2 none) 7).length
      = (BSpline_init [⟨1, 0, 0⟩, ⟨2, 0, 0⟩, ⟨3, 0, 0⟩] 2 none).cp_count
        + (BSpline_init [⟨1, 0, 0⟩, ⟨2, 0, 0⟩, ⟨3, 0, 0⟩] 2 none).order :=
  (C3_basis_length_and_point_formula
    (BSpline_init [⟨1, 0, 0⟩, ⟨2, 0, 0⟩, ⟨3, 0, 0⟩] 2 none) 7
    (by decide) (by decide)).1

/-- Claim C3 counterexample: a curve with `n = 3` control points and order `k = 4`
returns a basis vector of 7 entries, not `n + 1 = 4`. -/
theorem C3_counterexample :
    (BSpline_basis (BSpline_init [⟨0, 0, 0⟩, ⟨1, 0, 0⟩, ⟨2, 0, 0⟩] 4 none) 0).length = 7 ∧
    7 ≠ 3 + 1 := by
  constructor
  · with_unfolding_all decide
  · decide

/-- Claim C4 (amended): the `basis` fix-up forces `basis[n] = 1.0` exactly when `t`
equals the final knot `knots[n+k]` — which coincides with `max_t` only for the
open-uniform variants; the additional forcing `basis[n] = 1.0` and `basis[n+1] = 0.0`
exists only in the derivative periodic variant `DBSplineU.create_nbasis2` and fires
when `t` equals `knots[n+1]` (that variant's `max_t`).  The plain periodic `BSplineU`
applies no fix-up at `t = max_t` (see the counterexample: its `basis[n]` there is
`1/2`). -/
theorem C4_endpoint_fixup (c : BSplineData) (t : ℚ) (hord : 2 ≤ c.order) :
    (t = kn c.knots (c.cp_count + c.order) →
      (BSpline_basis c t).getD c.cp_count 0 = 1) ∧
    (t = kn c.knots (c.cp_count + 1) →
      (DBSplineU_create_nbasis2 c t).getD c.cp_count 0 = 1 ∧
      (DBSplineU_create_nbasis2 c t).getD (c.cp_count + 1) 0 = 0) := by
  constructor
  · intro ht
    have ht' : t = kn c.knots c.nplusc := ht
    rw [BSpline_basis, if_pos ht']
    refine getD_set_self _ _ _ ?_
    rw [nbasisOf_length c.knots c.nplusc c.order t (by rw [BSplineData.nplusc]; omega),
      BSplineData.nplusc]
    omega
  · intro ht
    rw [DBSplineU_create_nbasis2, if_pos ht]
    constructor
    · rw [getD_set_ne _ _ _ _ (by omega)]
      refine getD_set_self _ _ _ ?_
      rw [create_nbasis_length c.knots c.nplusc t (by rw [BSplineData.nplusc]; omega),
        BSplineData.nplusc]
      omega
    · refine getD_set_self _ _ _ ?_
      rw [List.length_set,
        create_nbasis_length c.knots c.nplusc t (by rw [BSplineData.nplusc]; omega),
        BSplineData.nplusc]
      omega

set_option maxRecDepth 8000 in
/-- Claim C4 witness: for the open-uniform curve with 4 points, order 3, the final
knot `knots[7] = 2` equals `max_t` and `basis[4]` is forced to `1`; for the uniform
derivative variant with the same points, `knots[5] = 4` equals its `max_t` and
`create_nbasis2` forces index 4 to `1` and index 5 to `0`. -/
theorem C4_witness :
    (BSpline_basis (BSpline_init [⟨0, 0, 0⟩, ⟨1, 0, 0⟩, ⟨2, 0, 0⟩, ⟨3, 0, 0⟩] 3 none)
        2).getD 4 0 = 1 ∧
    (DBSplineU_create_nbasis2
        (BSplineU_init [⟨0, 0, 0⟩, ⟨1, 0, 0⟩, ⟨2, 0, 0⟩, ⟨3, 0, 0⟩] 3 none) 4).getD 4 0
      = 1 ∧
    (DBSplineU_create_nbasis2
        (BSplineU_init [⟨0, 0, 0⟩, ⟨1, 0, 0⟩, ⟨2, 0, 0⟩, ⟨3, 0, 0⟩] 3 none) 4).getD 5 0
      = 0 :=
  ⟨(C4_endpoint_fixup
      (BSpline_init [⟨0, 0, 0⟩, ⟨1, 0, 0⟩, ⟨2, 0, 0⟩, ⟨3, 0, 0⟩] 3 none) 2
      (by decide)).1 (by with_unfolding_all decide),
   ((C4_endpoint_fixup
      (BSplineU_init [⟨0, 0, 0⟩, ⟨1, 0, 0⟩, ⟨2, 0, 0⟩, ⟨3, 0, 0⟩] 3 none) 4
      (by decide)).2 (by with_unfolding_all decide)).1,
   ((C4_endpoint_fixup
      (BSplineU_init [⟨0, 0, 0⟩, ⟨1, 0, 0⟩, ⟨2, 0, 0⟩, ⟨3, 0, 0⟩] 3 none) 4
      (by decide)).2 (by with_unfolding_all decide)).2⟩

set_option maxRecDepth 8000 in
/-- Claim C4 counterexample: for the plain periodic `BSplineU` with 4 control points
and order 3, `max_t = 4` but the final knot is `knots[7] = 6`, so at `t = max_t` no
fix-up fires and `basis[4] = 1/2 ≠ 1.0` (and the claimed `basis[n+1] = 0.0` forcing
does not exist in this class at all — it lives only in `DBSplineU`). -/
theorem C4_counterexample :
    BSplineU_max_t (BSplineU_init [⟨0, 0, 0⟩, ⟨1, 0, 0⟩, ⟨2, 0, 0⟩, ⟨3, 0, 0⟩] 3 none)
      = 4 ∧
    (BSpline_basis (BSplineU_init [⟨0, 0, 0⟩, ⟨1, 0, 0⟩, ⟨2, 0, 0⟩, ⟨3, 0, 0⟩] 3 none)
        4).getD 4 0 = 1 / 2 ∧
    (1 / 2 : ℚ) ≠ 1 := by
  refine ⟨?_, ?_, ?_⟩
  · with_unfolding_all decide
  · with_unfolding_all decide
  · with_unfolding_all decide

/-- Claim C5 (amended): partition of unity holds, exactly in rational arithmetic, for
every parameter strictly inside `[knot[k], knot[n+1])` of the 1-based knot array (the
standard domain; the claim's `knot[k-1]` lower index is off by one — see the
counterexample): for every curve state with a non-decreasing knot vector of the
length the constructor builds, the full vector returned by `basis(t)` sums to 1. -/
theorem C5_partition_of_unity (c : BSplineData) (t : ℚ)
    (hs : List.Sorted (· ≤ ·) c.knots)
    (hlen : c.knots.length = c.cp_count + c.order + 1)
    (hord : 1 ≤ c.order) (hn : 1 ≤ c.cp_count)
    (hlo : kn c.knots c.order ≤ t)
    (hhi : t < kn c.knots (c.cp_count + 1)) :
    (BSpline_basis c t).sum = 1 :=
  basis_sum_one c t hs hlen hord hn hlo hhi

set_option maxRecDepth 8000 in
/-- Claim C5 witness: the open-uniform curve with 4 points and order 3 at `t = 1/2`,
strictly inside `[knots[3], knots[5]) = [0, 2)`: the basis vector sums to exactly 1. -/
theorem C5_witness :
    (BSpline_basis (BSpline_init [⟨0, 0, 0⟩, ⟨1, 0, 0⟩, ⟨2, 0, 0⟩, ⟨3, 0, 0⟩] 3 none)
        (1 / 2)).sum = 1 :=
  C5_partition_of_unity
    (BSpline_init [⟨0, 0, 0⟩, ⟨1, 0, 0⟩, ⟨2, 0, 0⟩, ⟨3, 0, 0⟩] 3 none) (1 / 2)
    (by with_unfolding_all decide) (by decide) (by decide) (by decide)
    (by with_unfolding_all decide) (by with_unfolding_all decide)

set_option maxRecDepth 8000 in
/-- Claim C5 counterexample: the uniform curve with `n = 4`, `k = 3` has 1-based knots
`[_,0,1,2,3,4,5,6]`.  Under the claim's interval as written, `t = 3/2` is strictly
inside `[knot[k-1], knot[n+1]) = [knots[2], knots[5]) = [1, 4)` yet the basis sums to
`7/8 ≠ 1`; under a 0-based reading of the same indices (`[u_2, u_6) = [2, 5)` in
1-based terms `[knots[3], knots[6])`), `t = 9/2` is strictly inside yet the basis
sums to `11/8 ≠ 1`.  Partition of unity actually starts at `knots[k]`, not
`knots[k-1]`. -/
theorem C5_counterexample :
    List.Sorted (· ≤ ·)
      (BSplineU_init [⟨0, 0, 0⟩, ⟨1, 0, 0⟩, ⟨2, 0, 0⟩, ⟨3, 0, 0⟩] 3 none).knots ∧
    kn (BSplineU_init [⟨0, 0, 0⟩, ⟨1, 0, 0⟩, ⟨2, 0, 0⟩, ⟨3, 0, 0⟩] 3 none).knots 2
      < 3 / 2 ∧
    (3 / 2 : ℚ)
      < kn (BSplineU_init [⟨0, 0, 0⟩, ⟨1, 0, 0⟩, ⟨2, 0, 0⟩, ⟨3, 0, 0⟩] 3 none).knots 5 ∧
    (BSpline_basis (BSplineU_init [⟨0, 0, 0⟩, ⟨1, 0, 0⟩, ⟨2, 0, 0⟩, ⟨3, 0, 0⟩] 3 none)
        (3 / 2)).sum ≠ 1 ∧
    kn (BSplineU_init [⟨0, 0, 0⟩, ⟨1, 0, 0⟩, ⟨2, 0, 0⟩, ⟨3, 0, 0⟩] 3 none).knots 3
      < 9 / 2 ∧
    (9 / 2 : ℚ)
      < kn (BSplineU_init [⟨0, 0, 0⟩, ⟨1, 0, 0⟩, ⟨2, 0, 0⟩, ⟨3, 0, 0⟩] 3 none).knots 6 ∧
    (BSpline_basis (BSplineU_init [⟨0, 0, 0⟩, ⟨1, 0, 0⟩, ⟨2, 0, 0⟩, ⟨3, 0, 0⟩] 3 none)
        (9 / 2)).sum ≠ 1 := by
  refine ⟨?_, ?_, ?_, ?_, ?_, ?_, ?_⟩ <;> with_unfolding_all decide

/-- Claim C6 (amended): for every curve whose knot vector is non-decreasing (of the
length the constructor builds) and every parameter `t`, the value-form basis recursion
never executes a division whose denominator is zero: whenever a knot span is
zero-width the guards on the numerator basis values short-circuit the contribution to
`0.0` first, so the division-checked evaluation succeeds and agrees with the total
model.  The same is not true of the derivative form `dbasis`: the `create_nbasis2`
endpoint fix-up injects a basis value that violates the support property the guards
rely on, and with repeated knots `dbasis` reaches `0.0/0.0` (see the
counterexample). -/
theorem C6_no_zero_division_in_basis (c : BSplineData) (t : ℚ)
    (hs : List.Sorted (· ≤ ·) c.knots)
    (hlen : c.knots.length = c.cp_count + c.order + 1)
    (hord : 1 ≤ c.order) :
    BSpline_basisE c t = some (BSpline_basis c t) :=
  BSpline_basisE_some c t hs hlen hord

set_option maxRecDepth 8000 in
/-- Claim C6 witness: the uniform curve with 4 points, order 3, at `t = 3/2`: the
checked evaluation succeeds. -/
theorem C6_witness :
    BSpline_basisE (BSplineU_init [⟨0, 0, 0⟩, ⟨1, 0, 0⟩, ⟨2, 0, 0⟩, ⟨3, 0, 0⟩] 3 none)
        (3 / 2)
      = some (BSpline_basis
          (BSplineU_init [⟨0, 0, 0⟩, ⟨1, 0, 0⟩, ⟨2, 0, 0⟩, ⟨3, 0, 0⟩] 3 none) (3 / 2)) :=
  C6_no_zero_division_in_basis
    (BSplineU_init [⟨0, 0, 0⟩, ⟨1, 0, 0⟩, ⟨2, 0, 0⟩, ⟨3, 0, 0⟩] 3 none) (3 / 2)
    (by with_unfolding_all decide) (by decide) (by decide)

set_option maxRecDepth 8000 in
/-- Claim C6 counterexample: `DBSpline` with the non-decreasing (all-equal) custom
knot vector `[0.0] * 9`, 4 control points, order 4, at `t = 0`: `create_nbasis2` sees
`t == knots[nplusc]` and forces `nbasis[4] = 1.0`; at level `k = 2`, `i = 3`, the
guard `nbasis[i+1] != 0` passes and the code computes
`(knots[5] - t) * nbasis[4] / (knots[5] - knots[4]) = 0.0/0.0`, a ZeroDivisionError:
`dbasis` does propagate a zero-width-span division despite the guards. -/
theorem C6_counterexample :
    List.Sorted (· ≤ ·) (List.replicate 9 (0 : ℚ)) ∧
    DBSpline_dbasisE
        (BSpline_init (List.replicate 4 Vec3.zero) 4 (some (List.replicate 9 0))) 0
      = none := by
  constructor
  · with_unfolding_all decide
  · with_unfolding_all decide

/-- Claim C7 (confirmed): for every open-uniform curve built with default knots,
`n = len(control_points) ≥ k ≥ 2`, `point(0)` equals the first control point and
`point(max_t)` equals the last control point — exactly, in rational arithmetic. -/
theorem C7_endpoint_interpolation (cps : List Vec3) (k : ℕ)
    (h2 : 2 ≤ k) (hkn : k ≤ cps.length) :
    BSpline_point (BSpline_init cps k none) 0 = cps.getD 0 Vec3.zero ∧
    BSpline_point (BSpline_init cps k none)
        (BSpline_max_t (BSpline_init cps k none))
      = cps.getD (cps.length - 1) Vec3.zero := by
  have hn1 : 1 ≤ cps.length := by omega
  have hkQ : (k : ℚ) ≤ (cps.length : ℚ) := by exact_mod_cast hkn
  have hmaxval : BSpline_max_t (BSpline_init cps k none)
      = (cps.length : ℚ) + 1 - (k : ℚ) := kou_max cps.length k (by omega) hkn
  constructor
  · have hsnap : ¬ (BSpline_max_t (BSpline_init cps k none) - 0 < snap_tol) := by
      rw [hmaxval, snap_tol]
      intro hc
      linarith
    rw [BSpline_point, point_eval]
    simp only [if_neg hsnap]
    rw [wsum_single _ (BSpline_init cps k none).control_points
        (BSpline_init cps k none).cp_count Vec3.x 1 le_rfl hn1
        (basis_open_at_zero cps k h2 hkn),
      wsum_single _ (BSpline_init cps k none).control_points
        (BSpline_init cps k none).cp_count Vec3.y 1 le_rfl hn1
        (basis_open_at_zero cps k h2 hkn),
      wsum_single _ (BSpline_init cps k none).control_points
        (BSpline_init cps k none).cp_count Vec3.z 1 le_rfl hn1
        (basis_open_at_zero cps k h2 hkn)]
    rfl
  · have hsnap : BSpline_max_t (BSpline_init cps k none)
        - BSpline_max_t (BSpline_init cps k none) < snap_tol := by
      rw [sub_self, snap_tol]
      norm_num
    have hbm : ∀ m, 1 ≤ m → m ≤ cps.length →
        (BSpline_basis (BSpline_init cps k none)
            (BSpline_max_t (BSpline_init cps k none))).getD m 0
          = if m = cps.length then 1 else 0 := basis_open_at_max cps k h2 hkn
    rw [BSpline_point, point_eval]
    simp only [if_pos hsnap]
    rw [wsum_single _ (BSpline_init cps k none).control_points
        (BSpline_init cps k none).cp_count Vec3.x cps.length hn1 le_rfl hbm,
      wsum_single _ (BSpline_init cps k none).control_points
        (BSpline_init cps k none).cp_count Vec3.y cps.length hn1 le_rfl hbm,
      wsum_single _ (BSpline_init cps k none).control_points
        (BSpline_init cps k none).cp_count Vec3.z cps.length hn1 le_rfl hbm]
    obtain ⟨m, hm⟩ : ∃ m, cps.length = m + 1 := ⟨cps.length - 1, by omega⟩
    rw [hm]
    show ⟨(cps.getD m Vec3.zero).x, (cps.getD m Vec3.zero).y, (cps.getD m Vec3.zero).z⟩
      = cps.getD (m + 1 - 1) Vec3.zero
    rw [Nat.add_sub_cancel]

set_option maxRecDepth 8000 in
/-- Claim C7 witness: the open-uniform cubic-order-3 curve on 4 concrete points
interpolates its first and last control points. -/
theorem C7_witness :
    BSpline_point (BSpline_init [⟨1, 2, 3⟩, ⟨4, 0, 0⟩, ⟨0, 5, 0⟩, ⟨7, 8, 9⟩] 3 none) 0
      = [(⟨1, 2, 3⟩ : Vec3), ⟨4, 0, 0⟩, ⟨0, 5, 0⟩, ⟨7, 8, 9⟩].getD 0 Vec3.zero ∧
    BSpline_point (BSpline_init [⟨1, 2, 3⟩, ⟨4, 0, 0⟩, ⟨0, 5, 0⟩, ⟨7, 8, 9⟩] 3 none)
        (BSpline_max_t (BSpline_init [⟨1, 2, 3⟩, ⟨4, 0, 0⟩, ⟨0, 5, 0⟩, ⟨7, 8, 9⟩] 3 none))
      = [(⟨1, 2, 3⟩ : Vec3), ⟨4, 0, 0⟩, ⟨0, 5, 0⟩, ⟨7, 8, 9⟩].getD 3 Vec3.zero :=
  C7_endpoint_interpolation [⟨1, 2, 3⟩, ⟨4, 0, 0⟩, ⟨0, 5, 0⟩, ⟨7, 8, 9⟩] 3
    (by decide) (by decide)

/-- Claim C8 (confirmed): for every rational curve and parameter `t`, when the
weighted sum `Σ_j basis[j] * weight[j]` is exactly zero the rational `basis(t)`
returns the all-zero vector of length `n + 1` without raising and without dividing;
at every other `t` it returns the `(n + 1)`-entry vector with
`r[i] = basis[i] * weight[i] / Σ_j basis[j] * weight[j]` at indices `1 .. n` (index 0
the dummy). -/
theorem C8_degenerate_weight_guard (c : RBSplineData) (t : ℚ) :
    ((∑ i ∈ Finset.Ico 1 (c.base.cp_count + 1),
        (BSpline_basis c.base t).getD i 0 * c.weights.getD i 0) = 0 →
      RBSpline_basis c t = List.replicate (c.base.cp_count + 1) 0) ∧
    ((∑ i ∈ Finset.Ico 1 (c.base.cp_count + 1),
        (BSpline_basis c.base t).getD i 0 * c.weights.getD i 0) ≠ 0 →
      (RBSpline_basis c t).length = c.base.cp_count + 1 ∧
      (RBSpline_basis c t).getD 0 0 = 0 ∧
      ∀ i, 1 ≤ i → i ≤ c.base.cp_count →
        (RBSpline_basis c t).getD i 0
          = (BSpline_basis c.base t).getD i 0 * c.weights.getD i 0
            / ∑ j ∈ Finset.Ico 1 (c.base.cp_count + 1),
                (BSpline_basis c.base t).getD j 0 * c.weights.getD j 0) := by
  have hS : ((List.range' 1 c.base.cp_count).map
      (fun i => (BSpline_basis c.base t).getD i 0 * c.weights.getD i 0)).sum
      = ∑ i ∈ Finset.Ico 1 (c.base.cp_count + 1),
          (BSpline_basis c.base t).getD i 0 * c.weights.getD i 0 := by
    rw [range'_map_sum, Nat.add_comm 1 c.base.cp_count]
  constructor
  · intro h0
    rw [RBSpline_basis, weighting, hS, if_pos h0]
  · intro hne
    rw [RBSpline_basis, weighting, hS, if_neg hne]
    refine ⟨?_, rfl, ?_⟩
    · simp [one_based_array]
    · intro i hi1 hi2
      rw [one_based_map_getD
          (fun i => (BSpline_basis c.base t).getD i 0 * c.weights.getD i 0
            / ∑ j ∈ Finset.Ico 1 (c.base.cp_count + 1),
                (BSpline_basis c.base t).getD j 0 * c.weights.getD j 0)
          c.base.cp_count i hi1 hi2]

set_option maxRecDepth 8000 in
/-- Claim C8 witness: with all weights zero, the weighted sum is zero at `t = 1/2`
and the rational basis is the all-zero 4-vector; with nonzero weights the sum is
nonzero there and the reweighted vector has the stated length. -/
theorem C8_witness :
    RBSpline_basis ⟨BSpline_init [⟨0, 0, 0⟩, ⟨1, 0, 0⟩, ⟨2, 0, 0⟩] 3 none, [0, 0, 0, 0]⟩
        (1 / 2) = List.replicate 4 0 ∧
    (RBSpline_basis ⟨BSpline_init [⟨0, 0, 0⟩, ⟨1, 0, 0⟩, ⟨2, 0, 0⟩] 3 none, [0, 1, 1, 2]⟩
        (1 / 2)).length = 4 :=
  ⟨(C8_degenerate_weight_guard
      ⟨BSpline_init [⟨0, 0, 0⟩, ⟨1, 0, 0⟩, ⟨2, 0, 0⟩] 3 none, [0, 0, 0, 0]⟩ (1 / 2)).1
      (by with_unfolding_all decide),
   ((C8_degenerate_weight_guard
      ⟨BSpline_init [⟨0, 0, 0⟩, ⟨1, 0, 0⟩, ⟨2, 0, 0⟩] 3 none, [0, 1, 1, 2]⟩ (1 / 2)).2
      (by with_unfolding_all decide)).1⟩

/-- Claim C9 (confirmed): the `5e-6` snap in `point` (value form and derivative form,
all curve variants: the dispatched `basis`/`dbasis` is arbitrary here) is one-sided
and unbounded above: whenever `max_t - t < 5e-6`, and in particular for every
`t > max_t` however far above the domain, `point(t)` silently evaluates at exactly
`max_t`; there is no upper-bound check on `t` and no error path. -/
theorem C9_snap_one_sided_unbounded (max_t t : ℚ) (bf : ℚ → List ℚ) (df : ℚ → DState)
    (cps : List Vec3) (npts : ℕ) (h : max_t - t < snap_tol ∨ max_t < t) :
    point_eval max_t bf cps npts t = point_eval max_t bf cps npts max_t ∧
    dpoint_eval max_t df cps npts t = dpoint_eval max_t df cps npts max_t := by
  have h' : max_t - t < snap_tol := by
    rcases h with h | h
    · exact h
    · have h0 : max_t - t < 0 := by linarith
      have h1 : (0 : ℚ) < snap_tol := by rw [snap_tol]; norm_num
      linarith
  constructor
  · rw [point_eval, point_eval]
    simp only [if_pos h', ite_self]
  · rw [dpoint_eval, dpoint_eval]
    simp only [if_pos h', ite_self]

/-- Claim C9 witness: with `max_t = 2`, the far-out-of-domain parameter `t = 100`
evaluates exactly as `t = max_t` does, for both point forms. -/
theorem C9_witness :
    point_eval 2 (fun _ => [0, 1]) [⟨1, 1, 1⟩] 1 100
      = point_eval 2 (fun _ => [0, 1]) [⟨1, 1, 1⟩] 1 2 ∧
    dpoint_eval 2 (fun _ => ⟨[0, 1], [0, 0], [0, 0]⟩) [⟨1, 1, 1⟩] 1 100
      = dpoint_eval 2 (fun _ => ⟨[0, 1], [0, 0], [0, 0]⟩) [⟨1, 1, 1⟩] 1 2 :=
  C9_snap_one_sided_unbounded 2 100 (fun _ => [0, 1])
    (fun _ => ⟨[0, 1], [0, 0], [0, 0]⟩) [⟨1, 1, 1⟩] 1
    (Or.inr (by norm_num))

/-- Claim C10 (corrected): computing a closed (periodic) knot vector with order 2
fails for every 1-based control-point array with at least 2 actual points, but not
always with `IndexError`: when the pairwise-distance sum `maxc` is nonzero, the last
loop iteration reads `spacing[n-1]`, one past the end of the (n-2)-entry spacing
array, and raises `IndexError`; when `maxc` is zero (all listed consecutive points
coincident) and there are at least 3 actual points, the loop's first iteration raises
`ZeroDivisionError` at `numerator / maxc` before any out-of-bounds read.  For every
order `k >= 3`, every `spacing` subscript the loop uses stays in bounds and
`knot_closed` never raises `IndexError`. -/
theorem C10_knot_closed_failure (dist : Vec3 → Vec3 → ℚ) (cps : List Vec3) (k : ℕ) :
    (3 ≤ cps.length → (spacingOf dist cps).sum ≠ 0 →
      knot_closed dist cps 2 = Except.error PyErr.indexError) ∧
    (3 ≤ cps.length → ∀ xs, knot_closed dist cps 2 ≠ Except.ok xs) ∧
    (3 ≤ k → knot_closed dist cps k ≠ Except.error PyErr.indexError) := by
  refine ⟨knot_closed_order2_indexError dist cps, ?_, knot_closed_no_indexError dist cps k⟩
  intro h3 xs hok
  rcases Nat.lt_or_ge cps.length 4 with hlen | hlen
  · rw [knot_closed_len3_indexError dist cps (by omega)] at hok
    exact Except.noConfusion hok
  · by_cases hm : (spacingOf dist cps).sum = 0
    · rw [knot_closed_order2_zeroDiv dist cps hlen hm] at hok
      exact Except.noConfusion hok
    · rw [knot_closed_order2_indexError dist cps (by omega) hm] at hok
      exact Except.noConfusion hok

/-- Witness for C10 at a concrete input: five coincident actual points at unit
distances (`dist = 1`), order 2 raises `IndexError`; order 3 does not. -/
theorem C10_witness :
    (3 ≤ (List.replicate 5 Vec3.zero).length ∧
      (spacingOf (fun _ _ => (1 : ℚ)) (List.replicate 5 Vec3.zero)).sum ≠ 0 ∧
      knot_closed (fun _ _ => (1 : ℚ)) (List.replicate 5 Vec3.zero) 2
        = Except.error PyErr.indexError) ∧
    (3 ≤ 3 ∧ knot_closed (fun _ _ => (1 : ℚ)) (List.replicate 5 Vec3.zero) 3
        ≠ Except.error PyErr.indexError) :=
  ⟨⟨by decide, by with_unfolding_all decide,
      (C10_knot_closed_failure (fun _ _ => (1 : ℚ)) (List.replicate 5 Vec3.zero) 3).1
        (by decide) (by with_unfolding_all decide)⟩,
    by decide,
    (C10_knot_closed_failure (fun _ _ => (1 : ℚ)) (List.replicate 5 Vec3.zero) 3).2.2
      (by decide)⟩

/-- Counterexample to the claim as stated: for five coincident actual points (all
pairwise distances `0`, so `maxc = 0`) and order 2, `knot_closed` raises
`ZeroDivisionError` at the first loop iteration, not `IndexError`. -/
theorem C10_counterexample :
    knot_closed (fun _ _ => (0 : ℚ)) (List.replicate 5 Vec3.zero) 2
      = Except.error PyErr.zeroDivisionError ∧
    PyErr.zeroDivisionError ≠ PyErr.indexError :=
  ⟨by with_unfolding_all decide, by decide⟩

/-! ### Sanity checks mirroring the repository's `tests/test_algebra/test_knot.py` -/

theorem knot_open_uniform_order2_example :
    knot_open_uniform 5 2 = [0, 0, 0, 1, 2, 3, 4, 4] := by
  with_unfolding_all decide

theorem knot_open_uniform_order3_example :
    knot_open_uniform 7 3 = [0, 0, 0, 0, 1, 2, 3, 4, 5, 5, 5] := by
  with_unfolding_all decide

theorem knot_open_uniform_order4_example :
    knot_open_uniform 9 4 = [0, 0, 0, 0, 0, 1, 2, 3, 4, 5, 6, 6, 6, 6] := by
  with_unfolding_all decide

theorem knot_uniform_order2_example :
    knot_uniform 5 2 = [0, 0, 1, 2, 3, 4, 5, 6] := by
  with_unfolding_all decide

theorem knot_uniform_order4_example :
    knot_uniform 9 4 = [0, 0, 1, 2, 3, 4, 5, 6, 7, 8, 9, 10, 11, 12] := by
  with_unfolding_all decide
